import Mathlib

/-!
Formal model of the core logic of the `code-history-tracker` editor extension
(`src/extension.js`): the git-log record parser `parseGitLog`, the repository
root resolution `getGitRoot`, the history query operations `getLineHistory`,
`getFunctionHistory` and `searchCodeHistory`, the HTML renderer
`formatCommitsHTML` with its escaping function `escapeHTML`, and the
cursor symbol-name heuristic `getFunctionNameAtCursor`.

JavaScript strings are modelled as Lean `String` (sequences of Unicode scalar
values).  The JavaScript string primitives used by the source (`split`,
`trim`, `startsWith`, one-occurrence `replace`, `substring`, `join`) are
modelled by executable Lean functions on the underlying character lists,
written with explicit fuel where the recursion is not structural, so that
every definition evaluates inside the kernel.  External effects (the `git`
subprocess, the file system) are modelled by explicit oracle arguments:
`getGitRoot` receives the outcome of `git rev-parse --show-toplevel`, and the
history operations receive the repository root and a function from argument
strings to subprocess outcomes; the operations additionally return the list
of argument strings they passed to the subprocess, in order, so that retry
behaviour is observable.
-/

set_option maxRecDepth 40000

/-! ## JavaScript string primitives -/

/-- Character class of JavaScript whitespace (the class trimmed by
`String.prototype.trim` and matched by `\s`). -/
def jsIsSpace (c : Char) : Bool :=
  c == ' ' || c == '\t' || c == '\n' || c == '\r' ||
  c.toNat == 11 || c.toNat == 12 || c.toNat == 160 || c.toNat == 0x1680 ||
  (decide (0x2000 ≤ c.toNat ∧ c.toNat ≤ 0x200a)) ||
  c.toNat == 0x2028 || c.toNat == 0x2029 || c.toNat == 0x202f ||
  c.toNat == 0x205f || c.toNat == 0x3000 || c.toNat == 0xfeff

/-- Character class of JavaScript `\w` (word characters). -/
def jsIsWordChar (c : Char) : Bool :=
  (decide (97 ≤ c.toNat ∧ c.toNat ≤ 122)) ||
  (decide (65 ≤ c.toNat ∧ c.toNat ≤ 90)) ||
  (decide (48 ≤ c.toNat ∧ c.toNat ≤ 57)) ||
  c == '_'

/-- JavaScript `String.prototype.trim`: remove leading and trailing
whitespace. -/
def jsTrim (s : String) : String :=
  ⟨((s.data.dropWhile jsIsSpace).reverse.dropWhile jsIsSpace).reverse⟩

/-- JavaScript `String.prototype.startsWith` with a string argument. -/
def jsStartsWith (s pre : String) : Bool :=
  pre.data.isPrefixOf s.data

/-- Fuel-driven worker for `jsSplit`: scan the input, cutting at each
leftmost non-overlapping occurrence of the separator. -/
def jsSplitAux (sep : List Char) : Nat → List Char → List Char → List (List Char)
  | 0, rest, acc => [acc.reverse ++ rest]
  | _ + 1, [], acc => [acc.reverse]
  | fuel + 1, c :: rest, acc =>
    if sep.isPrefixOf (c :: rest) then
      acc.reverse :: jsSplitAux sep fuel ((c :: rest).drop sep.length) []
    else
      jsSplitAux sep fuel rest (c :: acc)

/-- JavaScript `String.prototype.split` with a non-empty string separator:
split at every leftmost non-overlapping occurrence.  (The source never
splits on an empty separator.) -/
def jsSplit (s sep : String) : List String :=
  (jsSplitAux sep.data (s.data.length + 1) s.data []).map (fun l => ⟨l⟩)

/-- Fuel-driven worker for `jsReplaceFirst`. -/
def jsReplaceFirstAux (pat repl : List Char) : Nat → List Char → List Char → List Char
  | 0, rest, acc => acc.reverse ++ rest
  | _ + 1, [], acc => acc.reverse
  | fuel + 1, c :: rest, acc =>
    if pat.isPrefixOf (c :: rest) then
      acc.reverse ++ repl ++ ((c :: rest).drop pat.length)
    else
      jsReplaceFirstAux pat repl fuel rest (c :: acc)

/-- JavaScript `String.prototype.replace` with a non-empty string pattern:
replace the first occurrence only (the string form of `replace` never
replaces more than one occurrence). -/
def jsReplaceFirst (s pat repl : String) : String :=
  ⟨jsReplaceFirstAux pat.data repl.data (s.data.length + 1) s.data []⟩

/-- JavaScript `String.prototype.substring start stop` (with
`start ≤ stop`; the source only uses `substring(0, 7)` and
`substring(0, 8)`). -/
def jsSubstring (s : String) (start stop : Nat) : String :=
  ⟨(s.data.drop start).take (stop - start)⟩

/-- JavaScript `Array.prototype.join` with separator. -/
def joinWith (sep : String) : List String → String
  | [] => ""
  | [s] => s
  | s :: t :: rest => s ++ sep ++ joinWith sep (t :: rest)

/-- JavaScript `Array.prototype.join` with the empty separator. -/
def joinAll : List String → String
  | [] => ""
  | s :: rest => s ++ joinAll rest

/-! ## The change-record data model (`parseGitLog`'s output shape) -/

/-- One parsed commit record, with the six fields the parser produces
(`hash`, `author`, `date`, `message`, `branch`, `diff`), each initialised
to the empty string. -/
structure Commit where
  hash : String
  author : String
  date : String
  message : String
  branch : String
  diff : String
deriving DecidableEq

/-- The record all of whose fields are the empty string, as initialised at
the top of the per-block loop in `parseGitLog`. -/
def initCommit : Commit :=
  { hash := "", author := "", date := "", message := "", branch := "", diff := "" }

/-- The mutable state of the per-block line loop of `parseGitLog`:
the commit being filled in, the `inDiff` flag, and the accumulated
`diffLines`. -/
structure ParseState where
  commit : Commit
  inDiff : Bool
  diffLines : List String
deriving DecidableEq

/-- Initial per-block parser state. -/
def initParseState : ParseState :=
  { commit := initCommit, inDiff := false, diffLines := [] }

/-- Test for the three diff-marker line prefixes of `parseGitLog`
(`diff --git`, `---`, `+++`). -/
def isDiffMarker (line : String) : Bool :=
  jsStartsWith line ("diff --git") || jsStartsWith line ("---") ||
    jsStartsWith line ("+++")

/-- Truthiness of `line.trim().match(/^\s+\w/)`: the string matches the
regular expression `^\s+\w` (one or more whitespace characters followed
by a word character). -/
def contMatch (t : String) : Bool :=
  match t.data with
  | [] => false
  | c :: _ =>
    jsIsSpace c &&
      (match t.data.dropWhile jsIsSpace with
       | [] => false
       | d :: _ => jsIsWordChar d)

/-- The body of the `for (let line of lines)` loop of `parseGitLog`: one
line updates the parser state, with the branches in source order. -/
def parseLogStep (st : ParseState) (line : String) : ParseState :=
  if jsStartsWith line ("commit ") then
    { st with commit := { st.commit with hash := jsTrim (jsReplaceFirst line ("commit ") ("")) } }
  else if jsStartsWith line ("Author: ") then
    { st with commit := { st.commit with author := jsTrim (jsReplaceFirst line ("Author: ") ("")) } }
  else if jsStartsWith line ("Date: ") then
    { st with commit := { st.commit with date := jsTrim (jsReplaceFirst line ("Date: ") ("")) } }
  else if jsStartsWith line ("Branches: ") then
    { st with commit := { st.commit with branch := jsTrim (jsReplaceFirst line ("Branches: ") ("")) } }
  else if isDiffMarker line then
    { st with inDiff := true }
  else if st.inDiff then
    { st with diffLines := st.diffLines ++ [line] }
  else if jsTrim line != "" && !(jsStartsWith line (" ")) then
    { st with commit := { st.commit with message :=
        (if st.commit.message != "" then st.commit.message ++ " " ++ jsTrim line
         else jsTrim line) } }
  else if jsStartsWith (jsTrim line) ("•") || contMatch (jsTrim line) then
    { st with commit := { st.commit with message := st.commit.message ++ " " ++ jsTrim line } }
  else
    st

/-- Parse one block of `parseGitLog`: run the line loop over the block's
lines and join the accumulated diff lines with newlines. -/
def parseBlockLines (lines : List String) : Commit :=
  let st := lines.foldl parseLogStep initParseState
  { st.commit with diff := joinWith ("\n") st.diffLines }

/-- The marker-restoration step of `parseGitLog`: a block that does not
start with `commit ` gets the marker prepended (the split consumed it). -/
def restoreMarker (block : String) : String :=
  if jsStartsWith block ("commit ") then block else "commit " ++ block

/-- The blocks `parseGitLog` keeps: split the raw output on the literal
separator `"\n\ncommit "` and keep the fragments whose trim is non-empty. -/
def commitBlocks (output : String) : List String :=
  (jsSplit output ("\n\ncommit ")).filter (fun b => jsTrim b != "")

/-- `parseGitLog` from `src/extension.js`: split the raw `git log` output
into blocks, restore the marker, and run the per-block line loop. -/
def parseGitLog (output : String) : List Commit :=
  (commitBlocks output).map (fun block =>
    parseBlockLines (jsSplit (restoreMarker block) ("\n")))

/-! ## Repository root resolution and the history operations

The subprocess boundary is modelled by oracle arguments.  `getGitRoot`
receives the outcome of running `git rev-parse --show-toplevel` in the
file's directory: `Except.ok` carries the captured stdout, `Except.error`
carries the thrown message (not a repository, tool missing).  The history
operations receive the already-resolved root (`Option String`, as
`getGitRoot` returns) and a `run` oracle mapping a `git` argument string to
the subprocess outcome; they return the result together with the list of
argument strings passed to `git`, in order. -/

/-- `getGitRoot` from `src/extension.js`: on success the trimmed output,
on any thrown error `null` (here `none`). -/
def getGitRoot (rawExec : Except String String) : Option String :=
  match rawExec with
  | Except.ok output => some (jsTrim output)
  | Except.error _ => none

/-- `executeGit` from `src/extension.js`: pass the argument string to the
subprocess; on failure rethrow with the `Git command failed: ` prefix. -/
def executeGit (run : String → Except String String) (args : String) :
    Except String String :=
  match run args with
  | Except.ok output => Except.ok output
  | Except.error msg => Except.error ("Git command failed: " ++ msg)

/-- The error message thrown by the history operations when the root
resolution produced `null`. -/
def notARepositoryMsg : String := "Not a git repository"

/-- The `git log -L start,end:file` argument string built by
`getLineHistory`. -/
def lineHistoryArgs (startLine endLine : Nat) (relativePath : String) : String :=
  "log --pretty=format:\"commit %H%nAuthor: %an <%ae>%nDate: %ad%nBranches: %D%n%n%s%n\" --date=relative -L "
    ++ Nat.repr startLine ++ "," ++ Nat.repr endLine ++ ":\"" ++ relativePath ++ "\""

/-- `getLineHistory` from `src/extension.js`, with the root and the
subprocess oracle made explicit, and the list of issued argument strings
returned alongside the result.  A missing root throws
`Not a git repository`; a failed range query on a multi-line range is
retried once on the single-line range `(startLine, startLine)`, and only
that retry's outcome is returned; on a single-line range the first failure
is returned directly. -/
def getLineHistory (gitRoot : Option String) (run : String → Except String String)
    (relativePath : String) (startLine endLine : Nat) :
    Except String (List Commit) × List String :=
  match gitRoot with
  | none => (Except.error notARepositoryMsg, [])
  | some _ =>
    let args := lineHistoryArgs startLine endLine relativePath
    match executeGit run args with
    | Except.ok output => (Except.ok (parseGitLog output), [args])
    | Except.error err =>
      if startLine ≠ endLine then
        let singleLineArgs := lineHistoryArgs startLine startLine relativePath
        match executeGit run singleLineArgs with
        | Except.ok output => (Except.ok (parseGitLog output), [args, singleLineArgs])
        | Except.error err2 => (Except.error err2, [args, singleLineArgs])
      else
        (Except.error err, [args])

/-- The `git log -L :name:file` argument string built by
`getFunctionHistory`. -/
def functionHistoryArgs (functionName relativePath : String) : String :=
  "log --pretty=format:\"commit %H%nAuthor: %an <%ae>%nDate: %ad%nBranches: %D%n%n%s%n\" --date=relative -L :"
    ++ functionName ++ ":\"" ++ relativePath ++ "\""

/-- `getFunctionHistory` from `src/extension.js`, with the oracle
conventions of `getLineHistory`. -/
def getFunctionHistory (gitRoot : Option String) (run : String → Except String String)
    (relativePath : String) (functionName : String) :
    Except String (List Commit) × List String :=
  match gitRoot with
  | none => (Except.error notARepositoryMsg, [])
  | some _ =>
    let args := functionHistoryArgs functionName relativePath
    match executeGit run args with
    | Except.ok output => (Except.ok (parseGitLog output), [args])
    | Except.error err => (Except.error err, [args])

/-- The `git log -S` argument string built by `searchCodeHistory`. -/
def searchCodeHistoryArgs (codeSnippet relativePath : String) : String :=
  "log -S \"" ++ codeSnippet
    ++ "\" --pretty=format:\"commit %H%nAuthor: %an <%ae>%nDate: %ad%nBranches: %D%n%n%s%n\" --date=relative -- \""
    ++ relativePath ++ "\""

/-- `searchCodeHistory` from `src/extension.js`, with the oracle
conventions of `getLineHistory`. -/
def searchCodeHistory (gitRoot : Option String) (run : String → Except String String)
    (relativePath : String) (codeSnippet : String) :
    Except String (List Commit) × List String :=
  match gitRoot with
  | none => (Except.error notARepositoryMsg, [])
  | some _ =>
    let args := searchCodeHistoryArgs codeSnippet relativePath
    match executeGit run args with
    | Except.ok output => (Except.ok (parseGitLog output), [args])
    | Except.error err => (Except.error err, [args])

/-! ## HTML escaping -/

/-- Replacement for a single character under
`str.replace(/[&<>'"]/g, ...)` in `escapeHTML`. -/
def escChar (c : Char) : List Char :=
  if c = '&' then ('&' :: 'a' :: 'm' :: 'p' :: ';' :: [])
  else if c = '<' then ('&' :: 'l' :: 't' :: ';' :: [])
  else if c = '>' then ('&' :: 'g' :: 't' :: ';' :: [])
  else if c = Char.ofNat 39 then ('&' :: '#' :: '3' :: '9' :: ';' :: [])
  else if c = '"' then ('&' :: 'q' :: 'u' :: 'o' :: 't' :: ';' :: [])
  else [c]

/-- `escapeHTML` from `src/extension.js`: replace every occurrence of the
five HTML-special characters by its entity. -/
def escapeHTML (str : String) : String :=
  ⟨(str.data.map escChar).flatten⟩

/-! ## The HTML templates of `formatCommitsHTML`

The template literals of `formatCommitsHTML` are reproduced verbatim, split
at the `${...}` interpolation holes.  Pieces longer than about 1200
characters are split into chunks (`...c1`, `...c2`, ...) so that concrete
facts about them stay within kernel reduction limits; the piece is defined
as the concatenation of its chunks. -/

/-- Empty-state document text before the title interpolation -/
def emptyS0 : String :=
  "\n            <!DOCTYPE html>\n            <html lang=\"en\">\n            <head>\n                <meta charset=\"UTF-8\">\n                <meta name=\"viewport\" content=\"width=device-width, initial-scale=1.0\">\n                <title>"

/-- Empty-state document text between the two title interpolations (chunk 1 of 2) -/
def emptyS1c1 : String :=
  "</title>\n                <style>\n                    * \x7b\n                        margin: 0;\n                        padding: 0;\n                        box-sizing: border-box;\n                    \x7d\n                    body \x7b \n                        font-family: var(--vscode-font-family), -apple-system, BlinkMacSystemFont, \x27Segoe UI\x27, sans-serif;\n                        padding: 24px;\n                        color: var(--vscode-foreground);\n                        background-color: var(--vscode-editor-background);\n                        line-height: 1.6;\n                    \x7d\n                    .header \x7b\n                        margin-bottom: 24px;\n                        padding-bottom: 16px;\n                        border-bottom: 1px solid var(--vscode-panel-border);\n                    \x7d\n                    h1 \x7b\n                        font-size: 20px;\n                        font-weight: 600;\n                        color: var(--vscode-foreground);\n                        margin-bottom: 8px;\n                    \x7d\n                    .no-results \x7b\n                        display: flex;\n                        flex-direction: co"

/-- Empty-state document text between the two title interpolations (chunk 2 of 2) -/
def emptyS1c2 : String :=
  "lumn;\n                        align-items: center;\n                        justify-content: center;\n                        padding: 60px 20px;\n                        text-align: center;\n                    \x7d\n                    .no-results-icon \x7b\n                        font-size: 48px;\n                        margin-bottom: 16px;\n                        opacity: 0.5;\n                    \x7d\n                    .no-results-text \x7b\n                        color: var(--vscode-descriptionForeground);\n                        font-size: 14px;\n                    \x7d\n                </style>\n            </head>\n            <body>\n                <div class=\"header\">\n                    <h1>"

/-- Empty-state document text between the two title interpolations (concatenation of its chunks) -/
def emptyS1 : String :=
  emptyS1c1 ++ emptyS1c2

/-- Empty-state document text after the h1 title interpolation -/
def emptyS2 : String :=
  "</h1>\n                </div>\n                <div class=\"no-results\">\n                    <div class=\"no-results-icon\">📝</div>\n                    <p class=\"no-results-text\">No commits found in history.</p>\n                </div>\n            </body>\n            </html>\n        "

/-- Commit card text before the sequence number -/
def cardS0 : String :=
  "\n        <div class=\"commit-card\">\n            <div class=\"commit-header\">\n                <div class=\"commit-header-left\">\n                    <span class=\"commit-number\">#"

/-- Commit card text between sequence number and shortened hash -/
def cardS1 : String :=
  "</span>\n                    <code class=\"commit-hash\">"

/-- Commit card text between shortened hash and branch span -/
def cardS2 : String :=
  "</code>\n                    "

/-- Commit card text between branch span and escaped date -/
def cardS3 : String :=
  "\n                </div>\n                <span class=\"commit-date\">📅 "

/-- Commit card text between escaped date and escaped message -/
def cardS4 : String :=
  "</span>\n            </div>\n            \n            <div class=\"commit-body\">\n                <p class=\"commit-message\">"

/-- Commit card text between escaped message and escaped author -/
def cardS5 : String :=
  "</p>\n                \n                <div class=\"commit-author\">\n                    <svg class=\"author-icon\" width=\"14\" height=\"14\" viewBox=\"0 0 16 16\" fill=\"currentColor\">\n                        <path d=\"M8 8a3 3 0 1 0 0-6 3 3 0 0 0 0 6zm2-3a2 2 0 1 1-4 0 2 2 0 0 1 4 0zm4 8c0 1-1 1-1 1H3s-1 0-1-1 1-4 6-4 6 3 6 4zm-1-.004c-.001-.246-.154-.986-.832-1.664C11.516 10.68 10.289 10 8 10c-2.29 0-3.516.68-4.168 1.332-.678.678-.83 1.418-.832 1.664h10z\"/>\n                    </svg>\n                    <span class=\"author-name\">"

/-- Commit card text between escaped author and diff section -/
def cardS6 : String :=
  "</span>\n                </div>\n            </div>\n            \n            "

/-- Commit card text after the diff section -/
def cardS7 : String :=
  "\n        </div>\n    "

/-- Branch span text before the escaped branch label -/
def branchS0 : String :=
  "<span class=\"commit-branch\">🌿 "

/-- Branch span text after the escaped branch label -/
def branchS1 : String :=
  "</span>"

/-- Diff details text before the escaped diff body -/
def diffS0 : String :=
  "\n                <details class=\"commit-diff\">\n                    <summary class=\"diff-summary\">\n                        <svg class=\"diff-icon\" width=\"14\" height=\"14\" viewBox=\"0 0 16 16\" fill=\"currentColor\">\n                            <path d=\"M8.186 1.113a.5.5 0 0 0-.372 0L1.846 3.5 8 5.961 14.154 3.5 8.186 1.113zM15 4.239l-6.5 2.6v7.922l6.5-2.6V4.24zM7.5 14.762V6.838L1 4.239v7.923l6.5 2.6zM7.443.184a1.5 1.5 0 0 1 1.114 0l7.129 2.852A.5.5 0 0 1 16 3.5v8.662a1 1 0 0 1-.629.928l-7.185 2.874a.5.5 0 0 1-.372 0L.63 13.09a1 1 0 0 1-.63-.928V3.5a.5.5 0 0 1 .314-.464L7.443.184z\"/>\n                        </svg>\n                        <span>View changes</span>\n                        <svg class=\"chevron\" width=\"12\" height=\"12\" viewBox=\"0 0 16 16\" fill=\"currentColor\">\n                            <path fill-rule=\"evenodd\" d=\"M1.646 4.646a.5.5 0 0 1 .708 0L8 10.293l5.646-5.647a.5.5 0 0 1 .708.708l-6 6a.5.5 0 0 1-.708 0l-6-6a.5.5 0 0 1 0-.708z\"/>\n                        </svg>\n                    </summary>\n                    <pre class=\"diff-content\"><code>"

/-- Diff details text after the escaped diff body -/
def diffS1 : String :=
  "</code></pre>\n                </details>\n            "

/-- Populated document text before the head title interpolation -/
def popS0 : String :=
  "\n        <!DOCTYPE html>\n        <html lang=\"en\">\n        <head>\n            <meta charset=\"UTF-8\">\n            <meta name=\"viewport\" content=\"width=device-width, initial-scale=1.0\">\n            <title>"

/-- Populated document text between the two title interpolations (chunk 1 of 7) -/
def popS1c1 : String :=
  "</title>\n            <style>\n                * \x7b\n                    margin: 0;\n                    padding: 0;\n                    box-sizing: border-box;\n                \x7d\n                \n                body \x7b \n                    font-family: var(--vscode-font-family), -apple-system, BlinkMacSystemFont, \x27Segoe UI\x27, sans-serif;\n                    padding: 24px;\n                    color: var(--vscode-foreground);\n                    background-color: var(--vscode-editor-background);\n                    line-height: 1.6;\n                \x7d\n                \n                .header \x7b\n                    margin-bottom: 24px;\n                    padding-bottom: 16px;\n                    border-bottom: 1px solid var(--vscode-panel-border);\n                \x7d\n                \n                h1 \x7b\n                    font-size: 20px;\n                    font-weight: 600;\n                    color: var(--vscode-foreground);\n                    margin-bottom: 8px;\n                \x7d\n                \n                .stats-badge \x7b\n                    display: inline-flex;\n                    align-items: center;\n                    gap: 6px;"

/-- Populated document text between the two title interpolations (chunk 2 of 7) -/
def popS1c2 : String :=
  "\n                    background-color: var(--vscode-badge-background);\n                    color: var(--vscode-badge-foreground);\n                    padding: 4px 10px;\n                    border-radius: 12px;\n                    font-size: 12px;\n                    font-weight: 500;\n                \x7d\n                \n                .commit-card \x7b\n                    background-color: var(--vscode-editor-inactiveSelectionBackground);\n                    border: 1px solid var(--vscode-panel-border);\n                    border-left: 3px solid var(--vscode-charts-blue);\n                    border-radius: 6px;\n                    margin-bottom: 16px;\n                    overflow: hidden;\n                    transition: all 0.2s ease;\n                \x7d\n                \n                .commit-card:hover \x7b\n                    border-left-color: var(--vscode-charts-purple);\n                    box-shadow: 0 2px 8px rgba(0, 0, 0, 0.1);\n                \x7d\n                \n                .commit-header \x7b\n                    display: flex;\n                    justify-content: space-between;\n                    align-items: center;\n           "

/-- Populated document text between the two title interpolations (chunk 3 of 7) -/
def popS1c3 : String :=
  "         padding: 12px 16px;\n                    background-color: var(--vscode-sideBar-background);\n                    border-bottom: 1px solid var(--vscode-panel-border);\n                \x7d\n                \n                .commit-header-left \x7b\n                    display: flex;\n                    align-items: center;\n                    gap: 10px;\n                    flex-wrap: wrap;\n                \x7d\n                \n                .commit-number \x7b\n                    font-size: 11px;\n                    font-weight: 600;\n                    color: var(--vscode-descriptionForeground);\n                    background-color: var(--vscode-input-background);\n                    padding: 2px 6px;\n                    border-radius: 4px;\n                \x7d\n                \n                .commit-hash \x7b\n                    font-family: \x27Consolas\x27, \x27Monaco\x27, monospace;\n                    font-size: 12px;\n                    background-color: var(--vscode-textCodeBlock-background);\n                    color: var(--vscode-textLink-foreground);\n                    padding: 3px 8px;\n                    border-radius: 4px;\n                 "

/-- Populated document text between the two title interpolations (chunk 4 of 7) -/
def popS1c4 : String :=
  "   font-weight: 500;\n                \x7d\n                \n                .commit-branch \x7b\n                    font-size: 11px;\n                    color: var(--vscode-descriptionForeground);\n                    background-color: var(--vscode-input-background);\n                    padding: 2px 8px;\n                    border-radius: 10px;\n                \x7d\n                \n                .commit-date \x7b\n                    font-size: 12px;\n                    color: var(--vscode-descriptionForeground);\n                    display: flex;\n                    align-items: center;\n                    gap: 4px;\n                \x7d\n                \n                .commit-body \x7b\n                    padding: 16px;\n                \x7d\n                \n                .commit-message \x7b\n                    font-size: 14px;\n                    font-weight: 500;\n                    color: var(--vscode-foreground);\n                    margin-bottom: 12px;\n                    line-height: 1.5;\n                \x7d\n                \n                .commit-author \x7b\n                    display: flex;\n                    align-items: center;\n                 "

/-- Populated document text between the two title interpolations (chunk 5 of 7) -/
def popS1c5 : String :=
  "   gap: 6px;\n                    font-size: 12px;\n                    color: var(--vscode-descriptionForeground);\n                \x7d\n                \n                .author-icon \x7b\n                    opacity: 0.7;\n                \x7d\n                \n                .author-name \x7b\n                    font-weight: 500;\n                \x7d\n                \n                .commit-diff \x7b\n                    margin-top: 12px;\n                    border-top: 1px solid var(--vscode-panel-border);\n                \x7d\n                \n                .diff-summary \x7b\n                    padding: 10px 16px;\n                    cursor: pointer;\n                    display: flex;\n                    align-items: center;\n                    gap: 8px;\n                    font-size: 12px;\n                    color: var(--vscode-textLink-foreground);\n                    background-color: var(--vscode-editor-background);\n                    transition: all 0.2s ease;\n                    user-select: none;\n                \x7d\n                \n                .diff-summary:hover \x7b\n                    background-color: var(--vscode-list-hoverBackground);\n     "

/-- Populated document text between the two title interpolations (chunk 6 of 7) -/
def popS1c6 : String :=
  "               color: var(--vscode-textLink-activeForeground);\n                \x7d\n                \n                .diff-icon \x7b\n                    flex-shrink: 0;\n                \x7d\n                \n                .chevron \x7b\n                    margin-left: auto;\n                    transition: transform 0.2s ease;\n                    opacity: 0.7;\n                \x7d\n                \n                details[open] .chevron \x7b\n                    transform: rotate(180deg);\n                \x7d\n                \n                .diff-content \x7b\n                    background-color: var(--vscode-textCodeBlock-background);\n                    padding: 16px;\n                    margin: 0;\n                    overflow-x: auto;\n                    font-family: \x27Consolas\x27, \x27Monaco\x27, monospace;\n                    font-size: 11px;\n                    line-height: 1.5;\n                    color: var(--vscode-editor-foreground);\n                    border-top: 1px solid var(--vscode-panel-border);\n                \x7d\n                \n                .diff-content code \x7b\n                    font-family: inherit;\n                \x7d\n                \n       "

/-- Populated document text between the two title interpolations (chunk 7 of 7) -/
def popS1c7 : String :=
  "         /* Scrollbar styling */\n                ::-webkit-scrollbar \x7b\n                    width: 10px;\n                    height: 10px;\n                \x7d\n                \n                ::-webkit-scrollbar-track \x7b\n                    background: var(--vscode-editor-background);\n                \x7d\n                \n                ::-webkit-scrollbar-thumb \x7b\n                    background: var(--vscode-scrollbarSlider-background);\n                    border-radius: 5px;\n                \x7d\n                \n                ::-webkit-scrollbar-thumb:hover \x7b\n                    background: var(--vscode-scrollbarSlider-hoverBackground);\n                \x7d\n                \n                /* Empty state */\n                .empty-state \x7b\n                    text-align: center;\n                    padding: 60px 20px;\n                    color: var(--vscode-descriptionForeground);\n                \x7d\n            </style>\n        </head>\n        <body>\n            <div class=\"header\">\n                <h1>"

/-- Populated document text between the two title interpolations (concatenation of its chunks) -/
def popS1 : String :=
  popS1c1 ++ popS1c2 ++ popS1c3 ++ popS1c4 ++ popS1c5 ++ popS1c6 ++ popS1c7

/-- Populated document text between h1 title and the commit count -/
def popS2 : String :=
  "</h1>\n                <div class=\"stats-badge\">\n                    <svg width=\"14\" height=\"14\" viewBox=\"0 0 16 16\" fill=\"currentColor\">\n                        <path d=\"M8 15A7 7 0 1 1 8 1a7 7 0 0 1 0 14zm0 1A8 8 0 1 0 8 0a8 8 0 0 0 0 16z\"/>\n                        <path d=\"M5.255 5.786a.237.237 0 0 0 .241.247h.825c.138 0 .248-.113.266-.25.09-.656.54-1.134 1.342-1.134.686 0 1.314.343 1.314 1.168 0 .635-.374.927-.965 1.371-.673.489-1.206 1.06-1.168 1.987l.003.217a.25.25 0 0 0 .25.246h.811a.25.25 0 0 0 .25-.25v-.105c0-.718.273-.927 1.01-1.486.609-.463 1.244-.977 1.244-2.056 0-1.511-1.276-2.241-2.673-2.241-1.267 0-2.655.59-2.75 2.286zm1.557 5.763c0 .533.425.927 1.01.927.609 0 1.028-.394 1.028-.927 0-.552-.42-.94-1.029-.94-.584 0-1.009.388-1.009.94z\"/>\n                    </svg>\n                    <span>Found "

/-- Populated document text between commit count and its plural suffix -/
def popS3 : String :=
  " commit"

/-- Populated document text between plural suffix and the commit cards -/
def popS4 : String :=
  "</span>\n                </div>\n            </div>\n            \n            <div class=\"commits-list\">\n                "

/-- Populated document text after the commit cards -/
def popS5 : String :=
  "\n            </div>\n        </body>\n        </html>\n    "

/-! ## The renderer -/

/-- The branch span of a commit card:
`commit.branch ? `<span class="commit-branch">🌿 ${...}</span>` : ''`.
The label shown is the first comma-separated token of the branch field,
trimmed and escaped. -/
def branchHTML (commit : Commit) : String :=
  if commit.branch != "" then
    branchS0 ++ escapeHTML (jsTrim (List.headD (jsSplit commit.branch (",")) (""))) ++ branchS1
  else ""

/-- The expandable diff section of a commit card:
`commit.diff ? `...<details>...` : ''`, with the escaped diff body. -/
def diffHTML (commit : Commit) : String :=
  if commit.diff != "" then
    diffS0 ++ escapeHTML commit.diff ++ diffS1
  else ""

/-- One commit card: the body of `commits.map((commit, index) => ...)` in
`formatCommitsHTML`, for a list of `total` commits and 0-based `index`.
The sequence number shown is `commits.length - index`, the revision
identifier is shortened to its first 7 characters (unescaped, as in the
source), and date, message and author are escaped. -/
def commitCard (total index : Nat) (commit : Commit) : String :=
  cardS0 ++ Nat.repr (total - index) ++
  cardS1 ++ jsSubstring commit.hash 0 7 ++
  cardS2 ++ branchHTML commit ++
  cardS3 ++ escapeHTML commit.date ++
  cardS4 ++ escapeHTML commit.message ++
  cardS5 ++ escapeHTML commit.author ++
  cardS6 ++ diffHTML commit ++
  cardS7

/-- The mapped card list `commits.map((commit, index) => ...)`, carrying
the 0-based index explicitly. -/
def commitCards (total : Nat) : Nat → List Commit → List String
  | _, [] => []
  | i, c :: rest => commitCard total i c :: commitCards total (i + 1) rest

/-- The plural suffix in `Found N commit${N !== 1 ? 's' : ''}`. -/
def pluralS (n : Nat) : String :=
  if n ≠ 1 then "s" else ""

/-- `formatCommitsHTML` from `src/extension.js`: the empty-state document
when the commit list is empty, otherwise the populated document with one
card per commit (newest first) joined with the empty separator. -/
def formatCommitsHTML (commits : List Commit) (title : String) : String :=
  if commits.length = 0 then
    emptyS0 ++ escapeHTML title ++ emptyS1 ++ escapeHTML title ++ emptyS2
  else
    popS0 ++ escapeHTML title ++ popS1 ++ escapeHTML title ++
    popS2 ++ Nat.repr commits.length ++ popS3 ++ pluralS commits.length ++
    popS4 ++ joinAll (commitCards commits.length 0 commits) ++ popS5

/-! ## The cursor symbol-name heuristic

`getFunctionNameAtCursor` applies an ordered list of regular expressions to
the line of text at the cursor and returns the first capture group of the
first match.  The six patterns use only literals, character classes, the
greedy quantifiers `*`, `+` and `?`, one alternation group and one capture
group (always `(\w+)`), so they are modelled by a small backtracking
matcher whose alternative order reproduces the JavaScript semantics:
leftmost match position, greedy quantifiers trying the longest repetition
first, `?` trying presence first, alternation left to right. -/

/-- One element of a regular-expression pattern.  `starKAux` and `capKAux`
are the internal backtracking states for a greedy class star and the
captured `(\w+)` group; `alts` lists alternatives in priority order, an
optional group carrying the empty alternative last. -/
inductive RPiece where
  | lit : List Char → RPiece
  | cls : (Char → Bool) → RPiece
  | star : (Char → Bool) → RPiece
  | capWord : RPiece
  | alts : List (List RPiece) → RPiece
  | starKAux : (Char → Bool) → Nat → RPiece
  | capKAux : Nat → RPiece

/-- Fuel-driven backtracking matcher.  `mrun fuel ps s cap` matches the
piece list `ps` at the start of `s` with group-1 capture `cap`;
the result is `none` on failure and `some cap'` on the first success in
JavaScript priority order. -/
def mrun : Nat → List RPiece → List Char → Option (List Char) →
    Option (Option (List Char))
  | 0, _, _, _ => none
  | _ + 1, [], _, cap => some cap
  | fuel + 1, p :: ps, s, cap =>
    match p with
    | RPiece.lit w =>
      if w.isPrefixOf s then mrun fuel ps (s.drop w.length) cap else none
    | RPiece.cls f =>
      match s with
      | [] => none
      | c :: rest => if f c then mrun fuel ps rest cap else none
    | RPiece.star f =>
      mrun fuel (RPiece.starKAux f ((s.takeWhile f).length) :: ps) s cap
    | RPiece.starKAux f k =>
      (match mrun fuel ps (s.drop k) cap with
       | some r => some r
       | none =>
         match k with
         | 0 => none
         | k' + 1 => mrun fuel (RPiece.starKAux f k' :: ps) s cap)
    | RPiece.capWord =>
      mrun fuel (RPiece.capKAux ((s.takeWhile jsIsWordChar).length) :: ps) s cap
    | RPiece.capKAux k =>
      (match k with
       | 0 => none
       | k' + 1 =>
         match mrun fuel ps (s.drop (k' + 1)) (some (s.take (k' + 1))) with
         | some r => some r
         | none => mrun fuel (RPiece.capKAux k' :: ps) s cap)
    | RPiece.alts as =>
      (match as with
       | [] => none
       | a :: rest =>
         match mrun fuel (a ++ ps) s cap with
         | some r => some r
         | none => mrun fuel (RPiece.alts rest :: ps) s cap)

/-- Scan match positions left to right, as JavaScript `String.match` does
for an unanchored pattern. -/
def scanPositions (pat : List RPiece) : Nat → List Char →
    Option (Option (List Char))
  | fuel, s =>
    match mrun 100000 pat s none with
    | some cap => some cap
    | none =>
      match fuel, s with
      | fuel' + 1, _ :: rest => scanPositions pat fuel' rest
      | _, _ => none

/-- The `\s+` piece (one whitespace character, then a greedy whitespace
star: same match set and priority order as the greedy `+`). -/
def wsPlus : List RPiece :=
  RPiece.cls jsIsSpace :: RPiece.star jsIsSpace :: []

/-- Pattern `/function\s+(\w+)\s*\(/`. -/
def patFunctionDecl : List RPiece :=
  RPiece.lit ("function".data) :: wsPlus ++
    (RPiece.capWord :: RPiece.star jsIsSpace :: RPiece.lit ("(".data) :: [])

/-- Pattern `/const\s+(\w+)\s*=\s*(?:async\s*)?\(/`. -/
def patConstArrow : List RPiece :=
  RPiece.lit ("const".data) :: wsPlus ++
    (RPiece.capWord :: RPiece.star jsIsSpace :: RPiece.lit ("=".data) ::
     RPiece.star jsIsSpace ::
     RPiece.alts ((RPiece.lit ("async".data) :: RPiece.star jsIsSpace :: []) :: [] :: []) ::
     RPiece.lit ("(".data) :: [])

/-- Pattern `/(\w+)\s*:\s*(?:async\s*)?function/`. -/
def patMethodColon : List RPiece :=
  RPiece.capWord :: RPiece.star jsIsSpace :: RPiece.lit (":".data) ::
    RPiece.star jsIsSpace ::
    RPiece.alts ((RPiece.lit ("async".data) :: RPiece.star jsIsSpace :: []) :: [] :: []) ::
    RPiece.lit ("function".data) :: []

/-- Pattern `/(?:public|private|protected)?\s*(\w+)\s*\([^)]*\)\s*{/`. -/
def patMethodDecl : List RPiece :=
  RPiece.alts ((RPiece.lit ("public".data) :: []) ::
               (RPiece.lit ("private".data) :: []) ::
               (RPiece.lit ("protected".data) :: []) :: [] :: []) ::
    RPiece.star jsIsSpace :: RPiece.capWord :: RPiece.star jsIsSpace ::
    RPiece.lit ("(".data) :: RPiece.star (fun c => c != ')') ::
    RPiece.lit (")".data) :: RPiece.star jsIsSpace ::
    RPiece.lit ("\x7b".data) :: []

/-- Pattern `/def\s+(\w+)\s*\(/`. -/
def patPythonDef : List RPiece :=
  RPiece.lit ("def".data) :: wsPlus ++
    (RPiece.capWord :: RPiece.star jsIsSpace :: RPiece.lit ("(".data) :: [])

/-- Pattern `/fn\s+(\w+)\s*\(/`. -/
def patRustFn : List RPiece :=
  RPiece.lit ("fn".data) :: wsPlus ++
    (RPiece.capWord :: RPiece.star jsIsSpace :: RPiece.lit ("(".data) :: [])

/-- The ordered pattern list of `getFunctionNameAtCursor`. -/
def cursorPatterns : List (List RPiece) :=
  patFunctionDecl :: patConstArrow :: patMethodColon :: patMethodDecl ::
    patPythonDef :: patRustFn :: []

/-- The `for (const pattern of patterns)` loop of
`getFunctionNameAtCursor`: on the first pattern that matches, return
`match[1]` (the loop stops even when the capture is absent, in which case
the JavaScript function returns `undefined`, observationally `null`). -/
def tryPatterns : List (List RPiece) → String → Option String
  | [], _ => none
  | pat :: rest, text =>
    match scanPositions pat (text.data.length + 1) text.data with
    | some cap =>
      (match cap with
       | some w => some ⟨w⟩
       | none => none)
    | none => tryPatterns rest text

/-- `getFunctionNameAtCursor` from `src/extension.js`, as a function of
the cursor line's text. -/
def getFunctionNameAtCursor (lineText : String) : Option String :=
  tryPatterns cursorPatterns lineText

/-! ## Shared helper lemmas about the parser -/

/-- The diff-mode flag is never cleared: once `inDiff` is set, every later
step keeps it set. -/
theorem parseLogStep_inDiff_mono (st : ParseState) (line : String)
    (h : st.inDiff = true) : (parseLogStep st line).inDiff = true := by
  unfold parseLogStep
  split_ifs <;> simp_all

/-- A string starting with the bullet glyph is non-empty. -/
theorem ne_empty_of_bullet (t : String) (h : jsStartsWith t ("•") = true) :
    t ≠ "" := by
  intro heq
  subst heq
  exact absurd h (by decide)

/-- A string matching `^\s+\w` is non-empty. -/
theorem ne_empty_of_contMatch (t : String) (h : contMatch t = true) :
    t ≠ "" := by
  intro heq
  subst heq
  exact absurd h (by decide)

/-- Per-step field provenance: each commit field is either unchanged by a
step or the line carries the corresponding evidence (the matching header
prefix, non-blank trimmed content for the message, diff mode or a marker
for the diff lines). -/
theorem parseLogStep_fields (st : ParseState) (l : String) :
    ((parseLogStep st l).commit.hash = st.commit.hash ∨ jsStartsWith l ("commit ") = true) ∧
    ((parseLogStep st l).commit.author = st.commit.author ∨ jsStartsWith l ("Author: ") = true) ∧
    ((parseLogStep st l).commit.date = st.commit.date ∨ jsStartsWith l ("Date: ") = true) ∧
    ((parseLogStep st l).commit.branch = st.commit.branch ∨ jsStartsWith l ("Branches: ") = true) ∧
    ((parseLogStep st l).commit.message = st.commit.message ∨ jsTrim l ≠ "") ∧
    ((parseLogStep st l).diffLines = st.diffLines ∨ st.inDiff = true) ∧
    ((parseLogStep st l).inDiff = st.inDiff ∨ isDiffMarker l = true) := by
  unfold parseLogStep
  split_ifs <;> simp_all
  rename_i hor
  rcases hor with hb | hc
  · exact Or.inr (ne_empty_of_bullet _ hb)
  · exact Or.inr (ne_empty_of_contMatch _ hc)

/-- Provenance transport along the line loop, for any commit-field
projection: if the folded value differs from the initial one, some line of
the block supplies the evidence. -/
theorem foldl_field_src {β : Type} (f : ParseState → β) (P : String → Prop)
    (hstep : ∀ st l, f (parseLogStep st l) = f st ∨ P l) :
    ∀ (ls : List String) (st : ParseState),
      f (ls.foldl parseLogStep st) ≠ f st → ∃ l ∈ ls, P l := by
  intro ls
  induction ls with
  | nil => intro st h; exact absurd rfl h
  | cons l ls ih =>
    intro st h
    rcases hstep st l with heq | hP
    · by_cases h2 : f (ls.foldl parseLogStep (parseLogStep st l)) = f (parseLogStep st l)
      · exact absurd (h2.trans heq) (by simpa using h)
      · rcases ih (parseLogStep st l) h2 with ⟨l', hm, hp⟩
        exact ⟨l', List.mem_cons_of_mem _ hm, hp⟩
    · exact ⟨l, List.mem_cons_self _ _, hP⟩

/-- Diff provenance along the line loop: a non-empty `diffLines` (or a set
`inDiff` flag) traces back to the initial state or to a diff-marker line. -/
theorem foldl_diff_src :
    ∀ (ls : List String) (st : ParseState),
      ((ls.foldl parseLogStep st).diffLines ≠ [] ∨ (ls.foldl parseLogStep st).inDiff = true) →
      (st.diffLines ≠ [] ∨ st.inDiff = true) ∨ ∃ l ∈ ls, isDiffMarker l = true := by
  intro ls
  induction ls with
  | nil => intro st h; exact Or.inl h
  | cons l ls ih =>
    intro st h
    rcases ih (parseLogStep st l) h with h2 | h2
    · have hf := parseLogStep_fields st l
      rcases h2 with hdl | hdf
      · rcases hf.2.2.2.2.2.1 with he | he
        · exact Or.inl (Or.inl (he ▸ hdl))
        · exact Or.inl (Or.inr he)
      · rcases hf.2.2.2.2.2.2 with he | he
        · exact Or.inl (Or.inr (he ▸ hdf))
        · exact Or.inr ⟨l, List.mem_cons_self _ _, he⟩
    · rcases h2 with ⟨l', hm, hp⟩
      exact Or.inr ⟨l', List.mem_cons_of_mem _ hm, hp⟩

/-- An empty list of diff lines joins to the empty diff string. -/
theorem joinWith_nil (sep : String) : joinWith sep [] = "" := rfl

/-! ## C1 -/

/-- C1 (counterexample): the raw text `"commit a\ncommit b"` contains two
lines beginning with `commit `, yet `parseGitLog` returns one record, so
the record count is not the marker-line count. -/
theorem c1_marker_count_counterexample :
    ¬ ((parseGitLog ("commit a\ncommit b")).length =
        ((jsSplit ("commit a\ncommit b") ("\n")).filter
          (fun l => jsStartsWith l ("commit "))).length) := by
  decide

/-- C1 (amended): `parseGitLog` returns exactly one record per fragment of
the split of the raw text on the literal separator `"\n\ncommit "` whose
trim is non-empty; the count is that fragment count, not the count of
lines beginning with `commit `, and it does depend on blank-line/marker
sequences inside diff bodies. -/
theorem c1_record_count_eq_kept_fragments (s : String) :
    (parseGitLog s).length =
      ((jsSplit s ("\n\ncommit ")).filter (fun b => jsTrim b != "")).length := by
  simp [parseGitLog, commitBlocks]

/-! ## C2 -/

/-- C2 (counterexample): in the fragment
`"commit h\ndiff --git a/x b/x\nAuthor: evil"` the line `Author: evil`
follows a diff-marker line, yet it is assigned to the author field and the
diff text stays empty — contradicting the claim that after diff mode every
subsequent line is appended verbatim to the diff and never assigned to a
header field. -/
theorem c2_sticky_diff_counterexample :
    ¬ (∀ c ∈ parseGitLog ("commit h\ndiff --git a/x b/x\nAuthor: evil"),
        c.author = "" ∧ c.diff = "Author: evil") := by
  decide

/-- C2 (amended): once a fragment's parser is in diff mode it never leaves
it, and a subsequent line is appended verbatim to the diff lines exactly
when it does not begin with one of the four header prefixes and is not
itself a diff-marker line; a line beginning with a header prefix is still
assigned to that header field (later value wins), and a diff-marker line
is consumed without being appended. -/
theorem c2_diff_mode_behaviour (st : ParseState) (line : String)
    (hd : st.inDiff = true) :
    (parseLogStep st line).inDiff = true ∧
    (jsStartsWith line ("commit ") = false → jsStartsWith line ("Author: ") = false →
     jsStartsWith line ("Date: ") = false → jsStartsWith line ("Branches: ") = false →
     isDiffMarker line = false →
     parseLogStep st line = { st with diffLines := st.diffLines ++ [line] }) ∧
    (jsStartsWith line ("commit ") = false → jsStartsWith line ("Author: ") = true →
     parseLogStep st line = { st with commit := { st.commit with
       author := jsTrim (jsReplaceFirst line ("Author: ") ("")) } }) ∧
    (jsStartsWith line ("commit ") = false → jsStartsWith line ("Author: ") = false →
     jsStartsWith line ("Date: ") = false → jsStartsWith line ("Branches: ") = false →
     isDiffMarker line = true →
     parseLogStep st line = { st with inDiff := true } ∧
       (parseLogStep st line).diffLines = st.diffLines) := by
  refine ⟨parseLogStep_inDiff_mono st line hd, ?_, ?_, ?_⟩
  · intro h1 h2 h3 h4 h5
    simp [parseLogStep, h1, h2, h3, h4, h5, hd]
  · intro h1 h2
    simp [parseLogStep, h1, h2]
  · intro h1 h2 h3 h4 h5
    simp [parseLogStep, h1, h2, h3, h4, h5]

/-- C2 (witness): the amended behaviour evaluated on a concrete in-diff
state, a plain diff line and a header-look-alike line. -/
theorem c2_diff_mode_behaviour_witness :
    (parseLogStep { commit := initCommit, inDiff := true, diffLines := [] } ("+x") =
      { commit := initCommit, inDiff := true, diffLines := ["+x"] }) ∧
    (parseLogStep { commit := initCommit, inDiff := true, diffLines := [] } ("Author: evil") =
      { commit := { initCommit with author := "evil" }, inDiff := true, diffLines := [] }) := by
  have h1 := (c2_diff_mode_behaviour
    { commit := initCommit, inDiff := true, diffLines := [] } ("+x") rfl).2.1
    (by decide) (by decide) (by decide) (by decide) (by decide)
  have h2 := (c2_diff_mode_behaviour
    { commit := initCommit, inDiff := true, diffLines := [] } ("Author: evil") rfl).2.2.1
    (by decide) (by decide)
  refine ⟨h1.trans (by decide), h2.trans (by decide)⟩

/-! ## C3 -/

/-- The head character of a trimmed string is never JavaScript
whitespace. -/
theorem jsTrim_head_not_space (s : String) (c : Char)
    (h : (jsTrim s).data.head? = some c) : jsIsSpace c = false := by
  have hpre :
      ((s.data.dropWhile jsIsSpace).reverse.dropWhile jsIsSpace).reverse <+:
        (s.data.dropWhile jsIsSpace) := by
    have hs := List.dropWhile_suffix (l := (s.data.dropWhile jsIsSpace).reverse) jsIsSpace
    simpa using hs.reverse
  have hdata : (jsTrim s).data =
      ((s.data.dropWhile jsIsSpace).reverse.dropWhile jsIsSpace).reverse := rfl
  rw [hdata] at h
  obtain ⟨w, hw⟩ := hpre
  have hv : (s.data.dropWhile jsIsSpace).head? = some c := by
    rw [← hw]
    simp [List.head?_append, h]
  have hm := List.head?_dropWhile_not jsIsSpace s.data
  rw [hv] at hm
  simpa using hm

/-- The continuation test `line.trim().match(/^\s+\w/)` of `parseGitLog`
can never succeed: the regular expression requires a leading whitespace
character, which `trim` has removed. -/
theorem contMatch_jsTrim (s : String) : contMatch (jsTrim s) = false := by
  unfold contMatch
  cases hh : (jsTrim s).data with
  | nil => rfl
  | cons c rest =>
    have hns : jsIsSpace c = false := jsTrim_head_not_space s c (by rw [hh]; rfl)
    simp [hns]

/-- C3: the continuation branch of `parseGitLog` is dead for indented
lines — its regular-expression test is applied to the already-trimmed line
and therefore never matches — and consequently the space-indented line
`"  world"` of the fragment `"commit h\nhello\n  world"` is discarded
instead of being appended to the summary (which stays `"hello"`). -/
theorem c3_indented_continuation_discarded :
    (∀ s : String, contMatch (jsTrim s) = false) ∧
    parseGitLog ("commit h\nhello\n  world") =
      [{ hash := "h", author := "", date := "", message := "hello",
         branch := "", diff := "" }] :=
  ⟨contMatch_jsTrim, by decide⟩

/-! ## C6 -/

/-- C6: when the repository root is resolved and the range query fails,
a multi-line range (`startLine ≠ endLine`) triggers exactly one retry on
the single-line range `(startLine, startLine)` — the issued argument list
is exactly the pair of range queries — and only the fallback's failure is
returned; on a single-line range the first failure is returned directly
with no retry. -/
theorem c6_single_line_fallback (root : String)
    (run : String → Except String String) (rel : String) (s e : Nat)
    (m1 : String) (h1 : run (lineHistoryArgs s e rel) = Except.error m1) :
    (s ≠ e → ∀ m2, run (lineHistoryArgs s s rel) = Except.error m2 →
      getLineHistory (some root) run rel s e =
        (Except.error ("Git command failed: " ++ m2),
         [lineHistoryArgs s e rel, lineHistoryArgs s s rel])) ∧
    (s ≠ e → ∀ out, run (lineHistoryArgs s s rel) = Except.ok out →
      getLineHistory (some root) run rel s e =
        (Except.ok (parseGitLog out),
         [lineHistoryArgs s e rel, lineHistoryArgs s s rel])) ∧
    (s = e →
      getLineHistory (some root) run rel s e =
        (Except.error ("Git command failed: " ++ m1), [lineHistoryArgs s e rel])) := by
  refine ⟨?_, ?_, ?_⟩
  · intro hne m2 h2
    simp [getLineHistory, executeGit, h1, h2, hne]
  · intro hne out h2
    simp [getLineHistory, executeGit, h1, h2, hne]
  · intro heq
    subst heq
    simp [getLineHistory, executeGit, h1]

/-- C6 (witness): the fallback behaviour evaluated with an oracle that
fails on every query, on the range (1, 2). -/
theorem c6_single_line_fallback_witness :
    getLineHistory (some ("r")) (fun _ => Except.error ("boom")) ("f") 1 2 =
      (Except.error ("Git command failed: boom"),
       [lineHistoryArgs 1 2 ("f"), lineHistoryArgs 1 1 ("f")]) :=
  (c6_single_line_fallback ("r") (fun _ => Except.error ("boom")) ("f") 1 2
    ("boom") rfl).1 (by decide) ("boom") rfl

/-! ## C7 -/

/-- C7: a failed root resolution yields `none` rather than an exception,
and each of the three history operations, given that `none` root, fails
with the typed `Not a git repository` condition without invoking the
external tool at all (empty issued-argument list); that condition is
distinct from every wrapped external-tool error. -/
theorem c7_none_root_typed_error (errMsg : String)
    (run : String → Except String String) (rel : String) (s e : Nat)
    (functionName codeSnippet : String) :
    getGitRoot (Except.error errMsg) = none ∧
    getLineHistory (getGitRoot (Except.error errMsg)) run rel s e =
      (Except.error notARepositoryMsg, []) ∧
    getFunctionHistory (getGitRoot (Except.error errMsg)) run rel functionName =
      (Except.error notARepositoryMsg, []) ∧
    searchCodeHistory (getGitRoot (Except.error errMsg)) run rel codeSnippet =
      (Except.error notARepositoryMsg, []) ∧
    (∀ m : String, notARepositoryMsg ≠ "Git command failed: " ++ m) := by
  refine ⟨rfl, rfl, rfl, rfl, ?_⟩
  intro m h
  have h2 : (notARepositoryMsg).data.head? = ("Git command failed: " ++ m).data.head? := by
    rw [h]
  rw [String.data_append, List.head?_append] at h2
  have h3 : (notARepositoryMsg).data.head? = some 'N' := rfl
  have h4 : ("Git command failed: ").data.head? = some 'G' := rfl
  rw [h3, h4] at h2
  simp at h2

/-! ## C9 -/

/-- C9: `getFunctionNameAtCursor` returns `calculateTotal` on the line
`function calculateTotal(items) {` and `none` on the line `const x = 5;`
(no pattern in the ordered list matches). -/
theorem c9_cursor_heuristic_scenarios :
    getFunctionNameAtCursor ("function calculateTotal(items) \x7b") =
      some ("calculateTotal") ∧
    getFunctionNameAtCursor ("const x = 5;") = none := by
  decide

/-! ## C10 -/

/-- C10: `parseGitLog` is a total function on strings — modelled by a
total Lean function — and every record it emits comes from one block's
line loop with all six fields present, each keeping its empty-string
default unless a line of the block supplies it: a non-empty hash, author,
date or branch requires a line with the corresponding header prefix, a
non-empty message requires a line with non-blank trimmed content, and a
non-empty diff requires a diff-marker line. -/
theorem c10_total_with_empty_defaults (s : String) (c : Commit)
    (hc : c ∈ parseGitLog s) :
    ∃ lines : List String, c = parseBlockLines lines ∧
      (c.hash ≠ "" → ∃ l ∈ lines, jsStartsWith l ("commit ") = true) ∧
      (c.author ≠ "" → ∃ l ∈ lines, jsStartsWith l ("Author: ") = true) ∧
      (c.date ≠ "" → ∃ l ∈ lines, jsStartsWith l ("Date: ") = true) ∧
      (c.branch ≠ "" → ∃ l ∈ lines, jsStartsWith l ("Branches: ") = true) ∧
      (c.message ≠ "" → ∃ l ∈ lines, jsTrim l ≠ "") ∧
      (c.diff ≠ "" → ∃ l ∈ lines, isDiffMarker l = true) := by
  rw [parseGitLog, List.mem_map] at hc
  obtain ⟨b, hb, hcb⟩ := hc
  subst hcb
  refine ⟨jsSplit (restoreMarker b) ("\n"), rfl, ?_, ?_, ?_, ?_, ?_, ?_⟩
  · intro hne
    exact foldl_field_src (fun st => st.commit.hash) _
      (fun st l => (parseLogStep_fields st l).1) _ initParseState hne
  · intro hne
    exact foldl_field_src (fun st => st.commit.author) _
      (fun st l => (parseLogStep_fields st l).2.1) _ initParseState hne
  · intro hne
    exact foldl_field_src (fun st => st.commit.date) _
      (fun st l => (parseLogStep_fields st l).2.2.1) _ initParseState hne
  · intro hne
    exact foldl_field_src (fun st => st.commit.branch) _
      (fun st l => (parseLogStep_fields st l).2.2.2.1) _ initParseState hne
  · intro hne
    exact foldl_field_src (fun st => st.commit.message) _
      (fun st l => (parseLogStep_fields st l).2.2.2.2.1) _ initParseState hne
  · intro hne
    have hdl : ((jsSplit (restoreMarker b) ("\n")).foldl parseLogStep
        initParseState).diffLines ≠ [] := by
      intro hnil
      apply hne
      show joinWith ("\n") _ = ""
      rw [hnil]
      rfl
    rcases foldl_diff_src (jsSplit (restoreMarker b) ("\n")) initParseState
        (Or.inl hdl) with h | h
    · rcases h with h | h
      · exact absurd rfl h
      · exact absurd h (by decide)
    · exact h

/-- C10 (witness): the defaults property evaluated on the raw text
`"commit h\nAuthor: a"`, whose single record has empty date, message,
branch and diff. -/
theorem c10_total_with_empty_defaults_witness :
    ∃ lines : List String,
      ({ hash := "h", author := "a", date := "", message := "",
         branch := "", diff := "" } : Commit) = parseBlockLines lines ∧
      (({ hash := "h", author := "a", date := "", message := "",
          branch := "", diff := "" } : Commit).hash ≠ "" →
        ∃ l ∈ lines, jsStartsWith l ("commit ") = true) ∧
      (({ hash := "h", author := "a", date := "", message := "",
          branch := "", diff := "" } : Commit).author ≠ "" →
        ∃ l ∈ lines, jsStartsWith l ("Author: ") = true) ∧
      (({ hash := "h", author := "a", date := "", message := "",
          branch := "", diff := "" } : Commit).date ≠ "" →
        ∃ l ∈ lines, jsStartsWith l ("Date: ") = true) ∧
      (({ hash := "h", author := "a", date := "", message := "",
          branch := "", diff := "" } : Commit).branch ≠ "" →
        ∃ l ∈ lines, jsStartsWith l ("Branches: ") = true) ∧
      (({ hash := "h", author := "a", date := "", message := "",
          branch := "", diff := "" } : Commit).message ≠ "" →
        ∃ l ∈ lines, jsTrim l ≠ "") ∧
      (({ hash := "h", author := "a", date := "", message := "",
          branch := "", diff := "" } : Commit).diff ≠ "" →
        ∃ l ∈ lines, isDiffMarker l = true) :=
  c10_total_with_empty_defaults ("commit h\nAuthor: a")
    { hash := "h", author := "a", date := "", message := "",
      branch := "", diff := "" } (by decide)

/-! ## Substring-absence machinery for the renderer theorems -/

/-- Bool test: `pat` occurs as a contiguous substring of `l`. -/
def hasSub (pat : List Char) : List Char → Bool
  | [] => pat.isEmpty
  | c :: rest => pat.isPrefixOf (c :: rest) || hasSub pat rest

/-- Correctness of `hasSub` with respect to `List.IsInfix`. -/
theorem hasSub_iff (pat : List Char) :
    ∀ l : List Char, hasSub pat l = true ↔ pat <:+: l := by
  intro l
  induction l with
  | nil =>
    simp [hasSub, List.isEmpty_iff]
  | cons c rest ih =>
    simp [hasSub, List.isPrefixOf_iff_prefix, ih, List.infix_cons_iff]

/-- Substring-freedom from a failing `hasSub` check. -/
theorem noSub_of_hasSub (pat l : List Char) (h : hasSub pat l = false) :
    ¬ pat <:+: l := by
  intro hc
  rw [(hasSub_iff pat l).mpr hc] at h
  exact absurd h (by decide)

/-- A list shorter than `pat` cannot contain it. -/
theorem noSub_short (pat l : List Char) (h : l.length < pat.length) :
    ¬ pat <:+: l :=
  fun hc => absurd hc.length_le (by omega)

/-- Occurrence decomposition over an append: an occurrence of `pat` in
`a ++ b` lies in `a`, lies in `b`, or spans the boundary, in which case a
proper non-empty prefix-suffix split of `pat` straddles it. -/
theorem infix_append_split (pat a b : List Char) (h : pat <:+: a ++ b) :
    pat <:+: a ∨ pat <:+: b ∨
      ∃ k, 0 < k ∧ k < pat.length ∧ pat.take k <:+ a ∧ pat.drop k <+: b := by
  obtain ⟨s, t, hst⟩ := h
  rcases List.append_eq_append_iff.mp hst with ⟨w, haw, htw⟩ | ⟨w, hsw, hbw⟩
  · exact Or.inl ⟨s, w, haw.symm⟩
  · rcases List.append_eq_append_iff.mp hsw with ⟨u, hau, hpu⟩ | ⟨u, hsu, hwu⟩
    · by_cases hu : u = []
      · subst hu
        simp only [List.nil_append] at hpu
        exact Or.inr (Or.inl ⟨[], t, by rw [hbw, ← hpu]; simp⟩)
      · by_cases hw0 : w = []
        · subst hw0
          rw [List.append_nil] at hpu
          exact Or.inl ⟨s, [], by rw [hau, ← hpu]; simp⟩
        · refine Or.inr (Or.inr ⟨u.length, ?_, ?_, ?_, ?_⟩)
          · exact List.length_pos.mpr hu
          · rw [hpu, List.length_append]
            have := List.length_pos.mpr hw0
            omega
          · rw [hpu, List.take_left]
            exact ⟨s, hau.symm⟩
          · rw [hpu, List.drop_left]
            exact ⟨t, hbw.symm⟩
    · exact Or.inr (Or.inl ⟨u, t, by rw [hbw, hwu]⟩)

/-- Border check: no non-trivial proper prefix of `pat` is a suffix of
`tail`. -/
def borderFreeB (pat tail : List Char) : Bool :=
  (List.range pat.length).all (fun k => k == 0 || !((pat.take k).isSuffixOf tail))

/-- Soundness of the border check, transported to any list with suffix
`tail` at least `pat.length - 1` long. -/
theorem borderFree_sound (pat tail a : List Char)
    (hb : borderFreeB pat tail = true) (hs : tail <:+ a)
    (hl : pat.length - 1 ≤ tail.length) :
    ∀ k, 0 < k → k < pat.length → ¬ (pat.take k <:+ a) := by
  intro k hk0 hk hcon
  have h1 : pat.take k <:+ tail := by
    apply List.suffix_of_suffix_length_le hcon hs
    simp only [List.length_take]
    omega
  have h2 := List.all_eq_true.mp hb k (List.mem_range.mpr hk)
  have hk0' : (k == 0) = false := by simp [Nat.pos_iff_ne_zero.mp hk0]
  rw [hk0'] at h2
  simp only [Bool.false_or, Bool.not_eq_true', Bool.not_eq_false] at h2
  have h3 : (pat.take k).isSuffixOf tail = true := by
    simpa [List.isSuffixOf_iff_suffix] using h1
  rw [h3] at h2
  exact absurd h2 (by decide)

/-- Head-blocking check: no character of `pat` past position 0 equals
`c`. -/
def headBlockB (pat : List Char) (c : Char) : Bool :=
  (List.range pat.length).all (fun k => k == 0 || !(pat[k]? == some c))

/-- Soundness of the head-blocking check: if `b` starts with a blocked
character, no non-trivial proper suffix of `pat` is a prefix of `b`. -/
theorem headBlock_sound (pat b : List Char) (c : Char)
    (hh : headBlockB pat c = true) (hb : b.head? = some c) :
    ∀ k, 0 < k → k < pat.length → ¬ (pat.drop k <+: b) := by
  intro k hk0 hk hcon
  obtain ⟨t, ht⟩ := hcon
  rw [← ht, List.head?_append] at hb
  have hne : pat.drop k ≠ [] := by
    rw [Ne, List.drop_eq_nil_iff]
    omega
  have hsome : (pat.drop k).head? = some c := by
    cases hd : (pat.drop k).head? with
    | none => exact absurd (List.head?_eq_none_iff.mp hd) hne
    | some d =>
      rw [hd] at hb
      simpa using hb
  rw [List.head?_drop] at hsome
  have h2 := List.all_eq_true.mp hh k (List.mem_range.mpr hk)
  have hk0' : (k == 0) = false := by simp [Nat.pos_iff_ne_zero.mp hk0]
  rw [hk0'] at h2
  simp only [Bool.false_or, Bool.not_eq_true'] at h2
  rw [hsome] at h2
  simp at h2

/-- Chained chunk check: scan a list of chunks keeping only the last
`p` characters of the processed text as carry, failing if `pat` occurs in
carry-plus-chunk (this covers both in-chunk occurrences and occurrences
spanning a chunk boundary). -/
def chainCheck (pat : List Char) (p : Nat) : List Char → List (List Char) → Bool
  | _, [] => true
  | carry, x :: rest =>
    !(hasSub pat (carry ++ x)) &&
      chainCheck pat p ((carry ++ x).drop ((carry ++ x).length - p)) rest

/-- One window step: if `pat` occurs in neither part nor in the window of
the last `pat.length` characters of `a` followed by the first
`pat.length` characters of `b`, it does not occur in `a ++ b`. -/
theorem not_infix_append (pat a b : List Char)
    (ha : ¬ pat <:+: a) (hb : ¬ pat <:+: b)
    (hw : ¬ pat <:+: (a.drop (a.length - pat.length) ++ b.take pat.length)) :
    ¬ pat <:+: (a ++ b) := by
  intro h
  rcases infix_append_split pat a b h with h1 | h1 | ⟨k, hk0, hk, hta, hdb⟩
  · exact ha h1
  · exact hb h1
  · apply hw
    have hka := hta.length_le
    simp only [List.length_take] at hka
    have hu2 : pat.take k <:+ a.drop (a.length - pat.length) := by
      apply List.suffix_of_suffix_length_le hta (List.drop_suffix _ _)
      simp only [List.length_take, List.length_drop]
      omega
    have hw2 : pat.drop k <+: b.take pat.length := by
      rw [List.prefix_take_iff]
      exact ⟨hdb, by simp only [List.length_drop]; omega⟩
    obtain ⟨x, hx⟩ := hu2
    obtain ⟨y, hy⟩ := hw2
    refine ⟨x, y, ?_⟩
    have hmid : pat.take k ++ (pat.drop k ++ y) = pat ++ y := by
      rw [← List.append_assoc, List.take_append_drop]
    rw [← hx, ← hy]
    rw [List.append_assoc x (pat.take k), hmid, ← List.append_assoc]

/-- Soundness of the chained chunk check: starting from a text `A` free of
`pat` with a carry that is a suffix of `A` covering its last
`min p A.length` characters, a successful scan of the chunks certifies
that `pat` does not occur in `A` followed by the chunks. -/
theorem chainCheck_sound (pat : List Char) (p : Nat) (hp : pat.length ≤ p) :
    ∀ (chunks : List (List Char)) (A carry : List Char),
      ¬ pat <:+: A → carry <:+ A → min p A.length ≤ carry.length →
      chainCheck pat p carry chunks = true →
      ¬ pat <:+: (A ++ chunks.flatten) := by
  intro chunks
  induction chunks with
  | nil =>
    intro A carry hA _ _ _
    simpa using hA
  | cons x rest ih =>
    intro A carry hA hcs hcl hchk
    rw [chainCheck, Bool.and_eq_true] at hchk
    obtain ⟨h1, h2⟩ := hchk
    have hnotcx : ¬ pat <:+: (carry ++ x) := by
      intro hcon
      rw [(hasSub_iff pat (carry ++ x)).mpr hcon] at h1
      exact absurd h1 (by decide)
    have hax : ¬ pat <:+: (A ++ x) := by
      apply not_infix_append pat A x hA
      · intro hx
        exact hnotcx (hx.trans (List.suffix_append carry x).isInfix)
      · intro hwin
        apply hnotcx
        have hdc : A.drop (A.length - pat.length) <:+ carry := by
          apply List.suffix_of_suffix_length_le (List.drop_suffix _ _) hcs
          simp only [List.length_drop]
          omega
        obtain ⟨z, hz⟩ := hdc
        have hwin2 : pat <:+: (A.drop (A.length - pat.length) ++ x) := by
          apply hwin.trans
          apply List.IsPrefix.isInfix
          rw [List.prefix_append_right_inj]
          exact List.take_prefix _ _
        apply hwin2.trans
        apply List.IsSuffix.isInfix
        exact ⟨z, by rw [← List.append_assoc, hz]⟩
    have hcs2 : (carry ++ x).drop ((carry ++ x).length - p) <:+ (A ++ x) := by
      apply (List.drop_suffix _ _).trans
      obtain ⟨w, hw⟩ := hcs
      exact ⟨w, by rw [← List.append_assoc, hw]⟩
    have hcl2 : min p (A ++ x).length ≤
        ((carry ++ x).drop ((carry ++ x).length - p)).length := by
      simp only [List.length_drop, List.length_append]
      omega
    have hres := ih (A ++ x) _ hax hcs2 hcl2 h2
    intro hcon
    apply hres
    rw [List.flatten_cons] at hcon
    rw [List.append_assoc]
    exact hcon

/-- Substring-freedom for a chunked concrete text: the first chunk is
checked directly and the rest through the carry scan. -/
theorem noSub_chunked (pat first : List Char) (chunks : List (List Char))
    (hfirst : hasSub pat first = false)
    (hchain : chainCheck pat pat.length
      (first.drop (first.length - pat.length)) chunks = true) :
    ¬ pat <:+: (first ++ chunks.flatten) := by
  apply chainCheck_sound pat pat.length le_rfl chunks first _
    (noSub_of_hasSub pat first hfirst) (List.drop_suffix _ _) _ hchain
  simp only [List.length_drop]
  omega

/-- One absence step with border bookkeeping: a clean accumulated text
(`pat`-free with empty border), then an arbitrary `pat`-free dynamic
piece, then a static piece whose head character blocks every proper
suffix of `pat`, whose tail has an empty border, and which is `pat`-free,
yield a clean accumulated text again. -/
theorem step_clean (pat A d s stail : List Char) (c0 : Char)
    (hA : ¬ pat <:+: A)
    (hAb : ∀ k, 0 < k → k < pat.length → ¬ pat.take k <:+ A)
    (hd : ¬ pat <:+: d)
    (hs : ¬ pat <:+: s)
    (hst : stail <:+ s) (hstl : pat.length - 1 ≤ stail.length)
    (h2 : borderFreeB pat stail = true)
    (h3 : s.head? = some c0) (h4 : headBlockB pat c0 = true) :
    (¬ pat <:+: (A ++ d ++ s)) ∧
    (∀ k, 0 < k → k < pat.length → ¬ pat.take k <:+ (A ++ d ++ s)) := by
  have hsb := borderFree_sound pat stail s h2 hst hstl
  have hhead := headBlock_sound pat s c0 h4 h3
  constructor
  · intro hcon
    rcases infix_append_split pat (A ++ d) s hcon with h | h | ⟨k, hk0, hk, _, hdb⟩
    · rcases infix_append_split pat A d h with h' | h' | ⟨k, hk0, hk, hta, _⟩
      · exact hA h'
      · exact hd h'
      · exact hAb k hk0 hk hta
    · exact hs h
    · exact hhead k hk0 hk hdb
  · intro k hk0 hk hcon
    apply hsb k hk0 hk
    apply List.suffix_of_suffix_length_le hcon (List.suffix_append _ _)
    have := hst.length_le
    simp only [List.length_take]
    omega

/-- Characters produced by `escChar` are never one of `<`, `>`, `"` or
the apostrophe. -/
theorem escChar_no_special (d c : Char) (hc : c ∈ escChar d) :
    c ≠ '<' ∧ c ≠ '>' ∧ c ≠ '"' ∧ c ≠ Char.ofNat 39 := by
  unfold escChar at hc
  split_ifs at hc with h1 h2 h3 h4 h5 <;>
    simp only [List.mem_cons, List.not_mem_nil, or_false] at hc
  · rcases hc with rfl | rfl | rfl | rfl | rfl <;>
      exact ⟨by decide, by decide, by decide, by decide⟩
  · rcases hc with rfl | rfl | rfl | rfl <;>
      exact ⟨by decide, by decide, by decide, by decide⟩
  · rcases hc with rfl | rfl | rfl | rfl <;>
      exact ⟨by decide, by decide, by decide, by decide⟩
  · rcases hc with rfl | rfl | rfl | rfl | rfl <;>
      exact ⟨by decide, by decide, by decide, by decide⟩
  · rcases hc with rfl | rfl | rfl | rfl | rfl | rfl <;>
      exact ⟨by decide, by decide, by decide, by decide⟩
  · subst hc
    exact ⟨h2, h3, h5, h4⟩

/-- Escaped text never contains `<`, `>`, `"` or the apostrophe, so a
pattern containing one of them never occurs in it. -/
theorem noSub_escape (pat : List Char) (s : String) (c : Char)
    (hc : c ∈ pat) (hnc : c = '<' ∨ c = '>' ∨ c = '"' ∨ c = Char.ofNat 39) :
    ¬ pat <:+: (escapeHTML s).data := by
  intro h
  have hmem : c ∈ (s.data.map escChar).flatten := h.subset hc
  rw [List.mem_flatten] at hmem
  obtain ⟨piece, hp, hcp⟩ := hmem
  rw [List.mem_map] at hp
  obtain ⟨d, _, hd⟩ := hp
  have hns := escChar_no_special d c (hd ▸ hcp)
  rcases hnc with h' | h' | h' | h'
  · exact hns.1 h'
  · exact hns.2.1 h'
  · exact hns.2.2.1 h'
  · exact hns.2.2.2 h'

/-- The digit characters emitted by `Nat.digitChar` below base 10. -/
theorem digitChar_isDigit (m : Nat) (h : m < 10) :
    (Nat.digitChar m).isDigit = true := by
  interval_cases m <;> decide

/-- Every character of `Nat.toDigitsCore 10` output is a decimal digit,
provided the accumulator already is. -/
theorem toDigitsCore_digits :
    ∀ (fuel n : Nat) (acc : List Char), (∀ c ∈ acc, c.isDigit = true) →
      ∀ c ∈ Nat.toDigitsCore 10 fuel n acc, c.isDigit = true := by
  intro fuel
  induction fuel with
  | zero => intro n acc hacc c hc; exact hacc c hc
  | succ fuel ih =>
    intro n acc hacc c hc
    rw [Nat.toDigitsCore] at hc
    split at hc
    · rcases List.mem_cons.mp hc with rfl | hmem
      · exact digitChar_isDigit _ (Nat.mod_lt _ (by norm_num))
      · exact hacc c hmem
    · refine ih _ _ ?_ c hc
      intro c' hc'
      rcases List.mem_cons.mp hc' with rfl | hmem
      · exact digitChar_isDigit _ (Nat.mod_lt _ (by norm_num))
      · exact hacc c' hmem

/-- Every character of `Nat.repr` is a decimal digit. -/
theorem natRepr_digits (n : Nat) : ∀ c ∈ (Nat.repr n).data, c.isDigit = true := by
  intro c hc
  exact toDigitsCore_digits _ _ [] (by intro c' hc'; cases hc') c hc

/-- A pattern containing a non-digit character never occurs in the
decimal representation of a number. -/
theorem noSub_repr (pat : List Char) (n : Nat) (c : Char)
    (hc : c ∈ pat) (hnd : c.isDigit = false) :
    ¬ pat <:+: (Nat.repr n).data := by
  intro h
  have := natRepr_digits n c (h.subset hc)
  rw [hnd] at this
  exact absurd this (by decide)

/-- The shortened revision identifier has at most `n` characters. -/
theorem jsSubstring_length (s : String) (n : Nat) :
    (jsSubstring s 0 n).data.length ≤ n := by
  simp [jsSubstring]

/-- The plural suffix has at most one character. -/
theorem pluralS_length (n : Nat) : (pluralS n).data.length ≤ 1 := by
  unfold pluralS
  split <;> decide

/-- Final absence step without border bookkeeping, for the last piece of
a concatenation. -/
theorem step_last (pat A d s : List Char) (c0 : Char)
    (hA : ¬ pat <:+: A)
    (hAb : ∀ k, 0 < k → k < pat.length → ¬ pat.take k <:+ A)
    (hd : ¬ pat <:+: d)
    (hs : ¬ pat <:+: s)
    (h3 : s.head? = some c0) (h4 : headBlockB pat c0 = true) :
    ¬ pat <:+: (A ++ d ++ s) := by
  have hhead := headBlock_sound pat s c0 h4 h3
  intro hcon
  rcases infix_append_split pat (A ++ d) s hcon with h | h | ⟨k, hk0, hk, _, hdb⟩
  · rcases infix_append_split pat A d h with h' | h' | ⟨k, hk0, hk, hta, _⟩
    · exact hA h'
    · exact hd h'
    · exact hAb k hk0 hk hta
  · exact hs h
  · exact hhead k hk0 hk hdb

/-- The three character-list patterns whose absence the renderer theorems
track: a fragment of the script payload, the branch-span class marker and
the details-section opening tag. -/
def scriptFrag : List Char := ("pt>alert").data

/-- Class marker of the branch span element. -/
def branchSpanMarker : List Char := ("class=\"commit-branch\"").data

/-- Opening tag of the expandable diff section. -/
def detailsMarker : List Char := ("<details class=\"commit-diff\">").data

/-- Absence of a pattern from the branch span of a card, for every commit:
the pattern is longer than 7 characters, contains an escaped character,
and passes the concrete checks against the two static pieces. -/
theorem branchHTML_no (pat : List Char) (c : Commit) (sp : Char)
    (hsp : sp ∈ pat) (hspc : sp = '<' ∨ sp = '>' ∨ sp = '"' ∨ sp = Char.ofNat 39)
    (hlen : 7 < pat.length)
    (h0 : hasSub pat branchS0.data = false)
    (hb : borderFreeB pat branchS0.data = true)
    (hl : pat.length - 1 ≤ branchS0.data.length)
    (h1 : hasSub pat branchS1.data = false)
    (hh : headBlockB pat '<' = true) :
    ¬ pat <:+: (branchHTML c).data := by
  unfold branchHTML
  split
  · intro hcon
    rw [String.data_append, String.data_append] at hcon
    rcases infix_append_split pat _ branchS1.data hcon with h | h | ⟨k, hk0, hk, _, hdb⟩
    · rcases infix_append_split pat branchS0.data _ h with h' | h' | ⟨k, hk0, hk, hta, _⟩
      · exact noSub_of_hasSub _ _ h0 h'
      · exact noSub_escape pat _ sp hsp hspc h'
      · exact borderFree_sound pat branchS0.data branchS0.data hb List.suffix_rfl hl
          k hk0 hk hta
    · exact noSub_of_hasSub _ _ h1 h
    · exact headBlock_sound pat branchS1.data '<' hh rfl k hk0 hk hdb
  · exact noSub_short pat _ (by simpa using Nat.lt_of_lt_of_le (by omega) hlen.le)

/-- Absence of a pattern from the diff section of a card, for every
commit, under the concrete checks against its two static pieces. -/
theorem diffHTML_no (pat : List Char) (c : Commit) (sp : Char)
    (hsp : sp ∈ pat) (hspc : sp = '<' ∨ sp = '>' ∨ sp = '"' ∨ sp = Char.ofNat 39)
    (hlen : 7 < pat.length)
    (h0 : hasSub pat diffS0.data = false)
    (hb : borderFreeB pat diffS0.data = true)
    (hl : pat.length - 1 ≤ diffS0.data.length)
    (h1 : hasSub pat diffS1.data = false)
    (hh : headBlockB pat '<' = true) :
    ¬ pat <:+: (diffHTML c).data := by
  unfold diffHTML
  split
  · intro hcon
    rw [String.data_append, String.data_append] at hcon
    rcases infix_append_split pat _ diffS1.data hcon with h | h | ⟨k, hk0, hk, _, hdb⟩
    · rcases infix_append_split pat diffS0.data _ h with h' | h' | ⟨k, hk0, hk, hta, _⟩
      · exact noSub_of_hasSub _ _ h0 h'
      · exact noSub_escape pat _ sp hsp hspc h'
      · exact borderFree_sound pat diffS0.data diffS0.data hb List.suffix_rfl hl
          k hk0 hk hta
    · exact noSub_of_hasSub _ _ h1 h
    · exact headBlock_sound pat diffS1.data '<' hh rfl k hk0 hk hdb
  · exact noSub_short pat _ (by simpa using Nat.lt_of_lt_of_le (by omega) hlen.le)

/-- Absence of a pattern from a whole commit card, for arbitrary index,
total and commit fields, given per-piece concrete checks, absence from
the branch and diff sections, and that the pattern is over 7 characters
long, at most 29 long, contains a non-digit and contains an escaped
character. -/
theorem commitCard_no (pat : List Char) (n i : Nat) (c : Commit)
    (hlen7 : 7 < pat.length) (hlenmax : pat.length - 1 ≤ 28)
    (dch : Char) (hdch : dch ∈ pat) (hdchd : dch.isDigit = false)
    (sp : Char) (hsp : sp ∈ pat)
    (hspc : sp = '<' ∨ sp = '>' ∨ sp = '"' ∨ sp = Char.ofNat 39)
    (hbr : ¬ pat <:+: (branchHTML c).data)
    (hdf : ¬ pat <:+: (diffHTML c).data)
    (hS0 : hasSub pat cardS0.data = false) (hB0 : borderFreeB pat cardS0.data = true)
    (hS1 : hasSub pat cardS1.data = false) (hB1 : borderFreeB pat cardS1.data = true)
    (hS2 : hasSub pat cardS2.data = false) (hB2 : borderFreeB pat cardS2.data = true)
    (hS3 : hasSub pat cardS3.data = false) (hB3 : borderFreeB pat cardS3.data = true)
    (hS4 : hasSub pat cardS4.data = false) (hB4 : borderFreeB pat cardS4.data = true)
    (hS5 : hasSub pat cardS5.data = false) (hB5 : borderFreeB pat cardS5.data = true)
    (hS6 : hasSub pat cardS6.data = false) (hB6 : borderFreeB pat cardS6.data = true)
    (hS7 : hasSub pat cardS7.data = false)
    (hhLt : headBlockB pat '<' = true) (hhNl : headBlockB pat '\n' = true) :
    ¬ pat <:+: (commitCard n i c).data := by
  have l0 : pat.length - 1 ≤ cardS0.data.length := le_trans hlenmax (by decide)
  have l1 : pat.length - 1 ≤ cardS1.data.length := le_trans hlenmax (by decide)
  have l2 : pat.length - 1 ≤ cardS2.data.length := le_trans hlenmax (by decide)
  have l3 : pat.length - 1 ≤ cardS3.data.length := le_trans hlenmax (by decide)
  have l4 : pat.length - 1 ≤ cardS4.data.length := le_trans hlenmax (by decide)
  have l5 : pat.length - 1 ≤ cardS5.data.length := le_trans hlenmax (by decide)
  have l6 : pat.length - 1 ≤ cardS6.data.length := le_trans hlenmax (by decide)
  have h0 : (¬ pat <:+: cardS0.data) ∧
      (∀ k, 0 < k → k < pat.length → ¬ pat.take k <:+ cardS0.data) :=
    ⟨noSub_of_hasSub _ _ hS0,
     borderFree_sound pat cardS0.data cardS0.data hB0 List.suffix_rfl l0⟩
  have st1 := step_clean pat cardS0.data (Nat.repr (n - i)).data cardS1.data
    cardS1.data '<' h0.1 h0.2 (noSub_repr pat _ dch hdch hdchd)
    (noSub_of_hasSub _ _ hS1) List.suffix_rfl l1 hB1 rfl hhLt
  have st2 := step_clean pat _ (jsSubstring c.hash 0 7).data cardS2.data
    cardS2.data '<' st1.1 st1.2
    (noSub_short pat _ (Nat.lt_of_le_of_lt (jsSubstring_length c.hash 7) hlen7))
    (noSub_of_hasSub _ _ hS2) List.suffix_rfl l2 hB2 rfl hhLt
  have st3 := step_clean pat _ (branchHTML c).data cardS3.data
    cardS3.data '\n' st2.1 st2.2 hbr
    (noSub_of_hasSub _ _ hS3) List.suffix_rfl l3 hB3 rfl hhNl
  have st4 := step_clean pat _ (escapeHTML c.date).data cardS4.data
    cardS4.data '<' st3.1 st3.2 (noSub_escape pat _ sp hsp hspc)
    (noSub_of_hasSub _ _ hS4) List.suffix_rfl l4 hB4 rfl hhLt
  have st5 := step_clean pat _ (escapeHTML c.message).data cardS5.data
    cardS5.data '<' st4.1 st4.2 (noSub_escape pat _ sp hsp hspc)
    (noSub_of_hasSub _ _ hS5) List.suffix_rfl l5 hB5 rfl hhLt
  have st6 := step_clean pat _ (escapeHTML c.author).data cardS6.data
    cardS6.data '<' st5.1 st5.2 (noSub_escape pat _ sp hsp hspc)
    (noSub_of_hasSub _ _ hS6) List.suffix_rfl l6 hB6 rfl hhLt
  have st7 := step_last pat _ (diffHTML c).data cardS7.data
    '\n' st6.1 st6.2 hdf
    (noSub_of_hasSub _ _ hS7) rfl hhNl
  intro hcon
  apply st7
  have hdata : (commitCard n i c).data =
      cardS0.data ++ (Nat.repr (n - i)).data ++ cardS1.data ++
      (jsSubstring c.hash 0 7).data ++ cardS2.data ++ (branchHTML c).data ++
      cardS3.data ++ (escapeHTML c.date).data ++ cardS4.data ++
      (escapeHTML c.message).data ++ cardS5.data ++
      (escapeHTML c.author).data ++ cardS6.data ++ (diffHTML c).data ++
      cardS7.data := by
    simp only [commitCard, String.data_append]
  rw [hdata] at hcon
  exact hcon

theorem branchHTML_no_scriptFrag (c : Commit) :
    ¬ scriptFrag <:+: (branchHTML c).data :=
  branchHTML_no scriptFrag c '>' (by decide) (by decide) (by decide)
    (by decide) (by decide) (by decide) (by decide) (by decide)

theorem diffHTML_no_scriptFrag (c : Commit) :
    ¬ scriptFrag <:+: (diffHTML c).data :=
  diffHTML_no scriptFrag c '>' (by decide) (by decide) (by decide)
    (by decide) (by decide) (by decide) (by decide) (by decide)

theorem commitCard_no_scriptFrag (n i : Nat) (c : Commit) :
    ¬ scriptFrag <:+: (commitCard n i c).data :=
  commitCard_no scriptFrag n i c (by decide) (by decide)
    '>' (by decide) (by decide)
    '>' (by decide) (by decide)
    (branchHTML_no_scriptFrag c) (diffHTML_no_scriptFrag c)
    (by decide) (by decide) (by decide) (by decide) (by decide) (by decide)
    (by decide) (by decide) (by decide) (by decide) (by decide) (by decide)
    (by decide) (by decide) (by decide)
    (by decide) (by decide)

/-- Every commit card begins with a newline character. -/
theorem commitCard_head (n i : Nat) (c : Commit) :
    (commitCard n i c).data.head? = some '\n' := by
  have h0 : cardS0.data.head? = some '\n' := rfl
  simp [commitCard, String.data_append, List.head?_append, h0]

/-- Every element of the mapped card list is a card. -/
theorem commitCards_mem (total : Nat) :
    ∀ (cs : List Commit) (i : Nat) (x : String),
      x ∈ commitCards total i cs → ∃ j c, x = commitCard total j c := by
  intro cs
  induction cs with
  | nil => intro i x hx; cases hx
  | cons c rest ih =>
    intro i x hx
    rcases List.mem_cons.mp hx with rfl | hmem
    · exact ⟨i, c, rfl⟩
    · exact ih (i + 1) x hmem

/-- Absence of a pattern from the joined card list, when the pattern is
absent from each card, cards start with a blocked character, and the
pattern is non-empty. -/
theorem joinAll_no (pat : List Char) (hnil : pat ≠ [])
    (hhNl : headBlockB pat '\n' = true) :
    ∀ (cards : List String),
      (∀ cs ∈ cards, (¬ pat <:+: cs.data) ∧ cs.data.head? = some '\n') →
      ¬ pat <:+: (joinAll cards).data := by
  intro cards
  induction cards with
  | nil =>
    intro _ hcon
    exact hnil (List.infix_nil.mp hcon)
  | cons x rest ih =>
    intro hcard hcon
    rw [show joinAll (x :: rest) = x ++ joinAll rest from rfl,
      String.data_append] at hcon
    rcases infix_append_split pat x.data (joinAll rest).data hcon with
      h | h | ⟨k, hk0, hk, _, hdb⟩
    · exact (hcard x (List.mem_cons_self _ _)).1 h
    · exact ih (fun c hm => hcard c (List.mem_cons_of_mem _ hm)) h
    · cases rest with
      | nil =>
        have : pat.drop k = [] := List.prefix_nil.mp hdb
        rw [List.drop_eq_nil_iff] at this
        omega
      | cons y rest2 =>
        have hy : (joinAll (y :: rest2)).data.head? = some '\n' := by
          rw [show joinAll (y :: rest2) = y ++ joinAll rest2 from rfl,
            String.data_append, List.head?_append,
            (hcard y (List.mem_cons_of_mem _ (List.mem_cons_self _ _))).2]
          rfl
        exact headBlock_sound pat _ '\n' hhNl hy k hk0 hk hdb

/-- Absence of the script fragment from the chunked style piece of the
populated document. -/
theorem popS1_no_scriptFrag : ¬ scriptFrag <:+: popS1.data := by
  have h := noSub_chunked scriptFrag popS1c1.data
    [popS1c2.data, popS1c3.data, popS1c4.data, popS1c5.data, popS1c6.data,
     popS1c7.data] (by decide) (by decide)
  intro hcon
  apply h
  have heq : popS1.data = popS1c1.data ++
      [popS1c2.data, popS1c3.data, popS1c4.data, popS1c5.data, popS1c6.data,
       popS1c7.data].flatten := by
    simp [popS1, String.data_append, List.append_assoc]
  rw [← heq]
  exact hcon

/-- Absence of the script fragment from every populated rendered
document, for arbitrary commit fields and title. -/
theorem formatCommitsHTML_no_scriptFrag (commits : List Commit)
    (title : String) (hne : ¬ commits.length = 0) :
    ¬ scriptFrag <:+: (formatCommitsHTML commits title).data := by
  have h0 : (¬ scriptFrag <:+: popS0.data) ∧
      (∀ k, 0 < k → k < scriptFrag.length → ¬ scriptFrag.take k <:+ popS0.data) :=
    ⟨noSub_of_hasSub _ _ (by decide),
     borderFree_sound scriptFrag popS0.data popS0.data (by decide)
       List.suffix_rfl (by decide)⟩
  have hp1head : popS1.data.head? = some '<' := by
    have h : popS1c1.data.head? = some '<' := rfl
    simp [popS1, String.data_append, List.head?_append, h]
  have hp1eq : popS1.data =
      (popS1c1 ++ popS1c2 ++ popS1c3 ++ popS1c4 ++ popS1c5 ++ popS1c6).data ++
        popS1c7.data := by
    simp [popS1, String.data_append]
  have hst1 : popS1c7.data <:+ popS1.data := by
    rw [hp1eq]
    exact List.suffix_append _ _
  have st1 := step_clean scriptFrag popS0.data (escapeHTML title).data
    popS1.data popS1c7.data '<' h0.1 h0.2
    (noSub_escape scriptFrag title '>' (by decide) (by decide))
    popS1_no_scriptFrag hst1 (by decide) (by decide) hp1head (by decide)
  have st2 := step_clean scriptFrag _ (escapeHTML title).data
    popS2.data popS2.data '<' st1.1 st1.2
    (noSub_escape scriptFrag title '>' (by decide) (by decide))
    (noSub_of_hasSub _ _ (by decide)) List.suffix_rfl (by decide) (by decide)
    rfl (by decide)
  have st3 := step_clean scriptFrag _ (Nat.repr commits.length).data
    popS3.data popS3.data ' ' st2.1 st2.2
    (noSub_repr scriptFrag _ '>' (by decide) (by decide))
    (noSub_of_hasSub _ _ (by decide)) List.suffix_rfl (by decide) (by decide)
    rfl (by decide)
  have st4 := step_clean scriptFrag _ (pluralS commits.length).data
    popS4.data popS4.data '<' st3.1 st3.2
    (noSub_short scriptFrag _
      (Nat.lt_of_le_of_lt (pluralS_length commits.length) (by decide)))
    (noSub_of_hasSub _ _ (by decide)) List.suffix_rfl (by decide) (by decide)
    rfl (by decide)
  have hjoin : ¬ scriptFrag <:+:
      (joinAll (commitCards commits.length 0 commits)).data := by
    apply joinAll_no scriptFrag (by decide) (by decide)
    intro cs hm
    rcases commitCards_mem commits.length commits 0 cs hm with ⟨j, c, rfl⟩
    exact ⟨commitCard_no_scriptFrag commits.length j c, commitCard_head _ j c⟩
  have st5 := step_last scriptFrag _
    (joinAll (commitCards commits.length 0 commits)).data popS5.data '\n'
    st4.1 st4.2 hjoin (noSub_of_hasSub _ _ (by decide)) rfl (by decide)
  intro hcon
  apply st5
  have hdata : (formatCommitsHTML commits title).data =
      popS0.data ++ (escapeHTML title).data ++ popS1.data ++
      (escapeHTML title).data ++ popS2.data ++
      (Nat.repr commits.length).data ++ popS3.data ++
      (pluralS commits.length).data ++ popS4.data ++
      (joinAll (commitCards commits.length 0 commits)).data ++
      popS5.data := by
    rw [formatCommitsHTML, if_neg hne]
    simp only [String.data_append]
  rw [hdata] at hcon
  exact hcon

/-- C5: for every commit list containing a record whose summary is the
crafted string `<script>alert(1)</script>`, and for every title, the
rendered document contains no raw occurrence of that string: the summary
is escaped before embedding, and no other interpolation can produce it. -/
theorem c5_script_payload_never_raw (commits : List Commit) (title : String)
    (h : ∃ c ∈ commits, c.message = "<script>alert(1)</script>") :
    ¬ (("<script>alert(1)</script>").data <:+:
        (formatCommitsHTML commits title).data) := by
  obtain ⟨c, hc, _⟩ := h
  have hne : ¬ commits.length = 0 := by
    intro h0
    rw [List.length_eq_zero] at h0
    subst h0
    cases hc
  intro hcon
  exact formatCommitsHTML_no_scriptFrag commits title hne
    ((show scriptFrag <:+: ("<script>alert(1)</script>").data by decide).trans hcon)

/-- C5 (witness): the property evaluated on a single crafted record. -/
theorem c5_script_payload_never_raw_witness :
    ¬ (("<script>alert(1)</script>").data <:+:
        (formatCommitsHTML
          [{ hash := "", author := "", date := "",
             message := "<script>alert(1)</script>", branch := "", diff := "" }]
          ("t")).data) :=
  c5_script_payload_never_raw
    [{ hash := "", author := "", date := "",
       message := "<script>alert(1)</script>", branch := "", diff := "" }]
    ("t")
    ⟨{ hash := "", author := "", date := "",
       message := "<script>alert(1)</script>", branch := "", diff := "" },
     List.mem_cons_self _ _, rfl⟩

/-! ## C8: block structure of the rendered document -/

/-- Data decomposition of a commit card into its fifteen pieces. -/
theorem commitCard_data (n i : Nat) (c : Commit) :
    (commitCard n i c).data =
      cardS0.data ++ (Nat.repr (n - i)).data ++ cardS1.data ++
      (jsSubstring c.hash 0 7).data ++ cardS2.data ++ (branchHTML c).data ++
      cardS3.data ++ (escapeHTML c.date).data ++ cardS4.data ++
      (escapeHTML c.message).data ++ cardS5.data ++ (escapeHTML c.author).data ++
      cardS6.data ++ (diffHTML c).data ++ cardS7.data := by
  simp only [commitCard, String.data_append]

/-- Data decomposition of the populated document. -/
theorem formatCommitsHTML_data (commits : List Commit) (title : String)
    (hne : ¬ commits.length = 0) :
    (formatCommitsHTML commits title).data =
      popS0.data ++ (escapeHTML title).data ++ popS1.data ++
      (escapeHTML title).data ++ popS2.data ++
      (Nat.repr commits.length).data ++ popS3.data ++
      (pluralS commits.length).data ++ popS4.data ++
      (joinAll (commitCards commits.length 0 commits)).data ++
      popS5.data := by
  rw [formatCommitsHTML, if_neg hne]
  simp only [String.data_append]

/-- A suffix of the left part plus a prefix of the right part, around a
middle piece, is an infix of the three-piece concatenation. -/
theorem mid_infix (A d B asuf bpre : List Char)
    (ha : asuf <:+ A) (hb : bpre <+: B) :
    (asuf ++ d ++ bpre) <:+: (A ++ d ++ B) := by
  obtain ⟨x, hx⟩ := ha
  obtain ⟨y, hy⟩ := hb
  refine ⟨x, y, ?_⟩
  rw [← hx, ← hy]
  simp [List.append_assoc]

/-- The card of the `i`-th commit is an infix of the joined card list. -/
theorem joinAll_commitCards_contains (total : Nat) :
    ∀ (cs : List Commit) (j i : Nat) (hi : i < cs.length),
      (commitCard total (j + i) (cs.get ⟨i, hi⟩)).data <:+:
        (joinAll (commitCards total j cs)).data := by
  intro cs
  induction cs with
  | nil => intro j i hi; exact absurd hi (by simp)
  | cons c rest ih =>
    intro j i hi
    cases i with
    | zero =>
      rw [show commitCards total j (c :: rest) =
        commitCard total j c :: commitCards total (j + 1) rest from rfl]
      rw [show joinAll (commitCard total j c :: commitCards total (j + 1) rest) =
        commitCard total j c ++ joinAll (commitCards total (j + 1) rest) from rfl]
      rw [String.data_append]
      exact (List.prefix_append _ _).isInfix
    | succ i =>
      have hi' : i < rest.length := by simpa using hi
      have := ih (j + 1) i hi'
      rw [show j + 1 + i = j + (i + 1) from by omega] at this
      rw [show commitCards total j (c :: rest) =
        commitCard total j c :: commitCards total (j + 1) rest from rfl]
      rw [show joinAll (commitCard total j c :: commitCards total (j + 1) rest) =
        commitCard total j c ++ joinAll (commitCards total (j + 1) rest) from rfl]
      rw [String.data_append]
      exact this.trans (List.suffix_append _ _).isInfix

/-- The sequence-number element of a card shows `total - index`. -/
theorem commitCard_number (n i : Nat) (c : Commit) :
    ((("class=\"commit-number\">#").data) ++ (Nat.repr (n - i)).data ++
      (("</span>").data)) <:+: (commitCard n i c).data := by
  have hm := mid_infix cardS0.data (Nat.repr (n - i)).data cardS1.data
    (("class=\"commit-number\">#").data) (("</span>").data)
    (by decide) (by decide)
  apply hm.trans
  refine ⟨[], (jsSubstring c.hash 0 7).data ++ cardS2.data ++ (branchHTML c).data ++
      cardS3.data ++ (escapeHTML c.date).data ++ cardS4.data ++
      (escapeHTML c.message).data ++ cardS5.data ++ (escapeHTML c.author).data ++
      cardS6.data ++ (diffHTML c).data ++ cardS7.data, ?_⟩
  rw [commitCard_data]
  simp [List.append_assoc]

/-- The revision element of a card shows the first 7 characters of the
hash, unescaped. -/
theorem commitCard_hash (n i : Nat) (c : Commit) :
    ((("class=\"commit-hash\">").data) ++ (jsSubstring c.hash 0 7).data ++
      (("</code>").data)) <:+: (commitCard n i c).data := by
  have hm := mid_infix cardS1.data (jsSubstring c.hash 0 7).data cardS2.data
    (("class=\"commit-hash\">").data) (("</code>").data)
    (by decide) (by decide)
  apply hm.trans
  refine ⟨cardS0.data ++ (Nat.repr (n - i)).data,
    (branchHTML c).data ++ cardS3.data ++ (escapeHTML c.date).data ++ cardS4.data ++
      (escapeHTML c.message).data ++ cardS5.data ++ (escapeHTML c.author).data ++
      cardS6.data ++ (diffHTML c).data ++ cardS7.data, ?_⟩
  rw [commitCard_data]
  simp [List.append_assoc]

/-- The branch-HTML factor is an infix of its card. -/
theorem commitCard_branchHTML_factor (n i : Nat) (c : Commit) :
    (branchHTML c).data <:+: (commitCard n i c).data := by
  refine ⟨cardS0.data ++ (Nat.repr (n - i)).data ++ cardS1.data ++
      (jsSubstring c.hash 0 7).data ++ cardS2.data,
    cardS3.data ++ (escapeHTML c.date).data ++ cardS4.data ++
      (escapeHTML c.message).data ++ cardS5.data ++ (escapeHTML c.author).data ++
      cardS6.data ++ (diffHTML c).data ++ cardS7.data, ?_⟩
  rw [commitCard_data]
  simp [List.append_assoc]

/-- The diff-HTML factor is an infix of its card. -/
theorem commitCard_diffHTML_factor (n i : Nat) (c : Commit) :
    (diffHTML c).data <:+: (commitCard n i c).data := by
  refine ⟨cardS0.data ++ (Nat.repr (n - i)).data ++ cardS1.data ++
      (jsSubstring c.hash 0 7).data ++ cardS2.data ++ (branchHTML c).data ++
      cardS3.data ++ (escapeHTML c.date).data ++ cardS4.data ++
      (escapeHTML c.message).data ++ cardS5.data ++ (escapeHTML c.author).data ++
      cardS6.data,
    cardS7.data, ?_⟩
  rw [commitCard_data]

/-- With a non-empty branch field, the card shows the first
comma-separated token of the branch label, trimmed and escaped, in the
branch span. -/
theorem commitCard_branch_token (n i : Nat) (c : Commit)
    (hbr : c.branch ≠ "") :
    ((("🌿 ").data) ++
      (escapeHTML (jsTrim (List.headD (jsSplit c.branch (",")) ("")))).data ++
      (("</span>").data)) <:+: (commitCard n i c).data := by
  have hcond : (c.branch != "") = true := by
    simpa using hbr
  have hb : branchHTML c =
      branchS0 ++ escapeHTML (jsTrim (List.headD (jsSplit c.branch (",")) (""))) ++
        branchS1 := by
    rw [branchHTML, if_pos hcond]
  have hm := mid_infix branchS0.data
    (escapeHTML (jsTrim (List.headD (jsSplit c.branch (",")) ("")))).data
    branchS1.data (("🌿 ").data) (("</span>").data) (by decide) (by decide)
  apply hm.trans
  apply List.IsInfix.trans _ (commitCard_branchHTML_factor n i c)
  rw [hb, String.data_append, String.data_append]

/-- With an empty branch field, the card contains no branch span: the
branch-span class marker does not occur anywhere in the card. -/
theorem commitCard_no_branchSpan (n i : Nat) (c : Commit)
    (hbr : c.branch = "") :
    ¬ branchSpanMarker <:+: (commitCard n i c).data := by
  have hb : branchHTML c = "" := by
    simp [branchHTML, hbr]
  apply commitCard_no branchSpanMarker n i c (by decide) (by decide)
    'c' (by decide) (by decide)
    '"' (by decide) (by decide)
    (by rw [hb]; exact noSub_short _ _ (by decide))
    (diffHTML_no branchSpanMarker c '"' (by decide) (by decide) (by decide)
      (by decide) (by decide) (by decide) (by decide) (by decide))
    (by decide) (by decide) (by decide) (by decide) (by decide) (by decide)
    (by decide) (by decide) (by decide) (by decide) (by decide) (by decide)
    (by decide) (by decide) (by decide)
    (by decide) (by decide)

/-- The card contains the expandable diff section's opening tag exactly
when the diff text is non-empty. -/
theorem commitCard_details_iff (n i : Nat) (c : Commit) :
    (detailsMarker <:+: (commitCard n i c).data) ↔ c.diff ≠ "" := by
  constructor
  · intro h
    by_contra hdiff
    have hd : diffHTML c = "" := by
      simp [diffHTML, hdiff]
    apply commitCard_no detailsMarker n i c (by decide) (by decide)
      'd' (by decide) (by decide)
      '<' (by decide) (by decide)
      (branchHTML_no detailsMarker c '<' (by decide) (by decide) (by decide)
        (by decide) (by decide) (by decide) (by decide) (by decide))
      (by rw [hd]; exact noSub_short _ _ (by decide))
      (by decide) (by decide) (by decide) (by decide) (by decide) (by decide)
      (by decide) (by decide) (by decide) (by decide) (by decide) (by decide)
      (by decide) (by decide) (by decide)
      (by decide) (by decide) h
  · intro hdiff
    have hcond : (c.diff != "") = true := by simpa using hdiff
    have hd : diffHTML c = diffS0 ++ escapeHTML c.diff ++ diffS1 := by
      rw [diffHTML, if_pos hcond]
    have h1 : detailsMarker <:+: diffS0.data := by decide
    apply h1.trans
    apply List.IsInfix.trans _ (commitCard_diffHTML_factor n i c)
    rw [hd, String.data_append, String.data_append]
    exact ((List.prefix_append diffS0.data _).trans
      (List.prefix_append _ diffS1.data)).isInfix

/-- C8: in the populated document, the block rendered for the record at
0-based index `i` is an infix of the document, shows the sequence number
`totalCount - i`, shows the first 7 characters of the record's revision
identifier, shows only the first comma-separated token of its branch
label (trimmed and escaped) when the label is non-empty, contains no
branch element when the label is empty, and includes the expandable diff
section exactly when the record's diff text is non-empty. -/
theorem c8_card_rendering (commits : List Commit) (title : String) (i : Nat)
    (hi : i < commits.length) (c : Commit) (hc : commits.get ⟨i, hi⟩ = c) :
    ((commitCard commits.length i c).data <:+:
       (formatCommitsHTML commits title).data) ∧
    (((("class=\"commit-number\">#").data) ++
       (Nat.repr (commits.length - i)).data ++ (("</span>").data)) <:+:
       (commitCard commits.length i c).data) ∧
    (((("class=\"commit-hash\">").data) ++ (jsSubstring c.hash 0 7).data ++
       (("</code>").data)) <:+: (commitCard commits.length i c).data) ∧
    (c.branch ≠ "" →
      ((("🌿 ").data) ++
        (escapeHTML (jsTrim (List.headD (jsSplit c.branch (",")) ("")))).data ++
        (("</span>").data)) <:+: (commitCard commits.length i c).data) ∧
    (c.branch = "" →
      ¬ branchSpanMarker <:+: (commitCard commits.length i c).data) ∧
    ((detailsMarker <:+: (commitCard commits.length i c).data) ↔
      c.diff ≠ "") := by
  have hne : ¬ commits.length = 0 := by omega
  refine ⟨?_, commitCard_number _ _ _, commitCard_hash _ _ _,
    fun h => commitCard_branch_token _ _ _ h,
    fun h => commitCard_no_branchSpan _ _ _ h,
    commitCard_details_iff _ _ _⟩
  have hjc := joinAll_commitCards_contains commits.length commits 0 i hi
  rw [Nat.zero_add, hc] at hjc
  apply hjc.trans
  rw [formatCommitsHTML_data commits title hne]
  exact ⟨popS0.data ++ (escapeHTML title).data ++ popS1.data ++
      (escapeHTML title).data ++ popS2.data ++
      (Nat.repr commits.length).data ++ popS3.data ++
      (pluralS commits.length).data ++ popS4.data, popS5.data,
    by simp [List.append_assoc]⟩

/-- Concrete record used by the C8 witness. -/
def c8WitnessCommit : Commit :=
  { hash := "abcdef0123", author := "a", date := "d", message := "m",
    branch := "main, dev", diff := "x" }

/-- C8 (witness): the block-structure properties evaluated on a concrete
single-record document. -/
theorem c8_card_rendering_witness :
    (0 < ([c8WitnessCommit] : List Commit).length) ∧
    (((commitCard 1 0 c8WitnessCommit).data <:+:
       (formatCommitsHTML [c8WitnessCommit] ("t")).data) ∧
    (((("class=\"commit-number\">#").data) ++ (Nat.repr 1).data ++
       (("</span>").data)) <:+: (commitCard 1 0 c8WitnessCommit).data) ∧
    (((("class=\"commit-hash\">").data) ++
       (jsSubstring c8WitnessCommit.hash 0 7).data ++ (("</code>").data)) <:+:
       (commitCard 1 0 c8WitnessCommit).data) ∧
    (c8WitnessCommit.branch ≠ "" →
      ((("🌿 ").data) ++
        (escapeHTML (jsTrim (List.headD
          (jsSplit c8WitnessCommit.branch (",")) ("")))).data ++
        (("</span>").data)) <:+: (commitCard 1 0 c8WitnessCommit).data) ∧
    (c8WitnessCommit.branch = "" →
      ¬ branchSpanMarker <:+: (commitCard 1 0 c8WitnessCommit).data) ∧
    ((detailsMarker <:+: (commitCard 1 0 c8WitnessCommit).data) ↔
      c8WitnessCommit.diff ≠ "")) :=
  ⟨by decide,
   c8_card_rendering [c8WitnessCommit] ("t") 0 (by decide) c8WitnessCommit rfl⟩

/-! ## C4: escaping of interpolated fields -/

/-- The card of the `i`-th commit is an infix of the populated
document. -/
theorem commitCard_infix_doc (commits : List Commit) (title : String)
    (i : Nat) (hi : i < commits.length) (c : Commit)
    (hc : commits.get ⟨i, hi⟩ = c) :
    (commitCard commits.length i c).data <:+:
      (formatCommitsHTML commits title).data := by
  have hne : ¬ commits.length = 0 := by omega
  have hjc := joinAll_commitCards_contains commits.length commits 0 i hi
  rw [Nat.zero_add, hc] at hjc
  apply hjc.trans
  rw [formatCommitsHTML_data commits title hne]
  exact ⟨popS0.data ++ (escapeHTML title).data ++ popS1.data ++
      (escapeHTML title).data ++ popS2.data ++
      (Nat.repr commits.length).data ++ popS3.data ++
      (pluralS commits.length).data ++ popS4.data, popS5.data,
    by simp [List.append_assoc]⟩

/-- A middle segment of the card around an interpolated piece is an infix
of the card; specialised to the date slot. -/
theorem commitCard_date_slot (n i : Nat) (c : Commit) :
    ((("commit-date\">📅 ").data) ++ (escapeHTML c.date).data ++
      (("</span>").data)) <:+: (commitCard n i c).data := by
  have hm := mid_infix cardS3.data (escapeHTML c.date).data cardS4.data
    (("commit-date\">📅 ").data) (("</span>").data) (by decide) (by decide)
  apply hm.trans
  refine ⟨cardS0.data ++ (Nat.repr (n - i)).data ++ cardS1.data ++
      (jsSubstring c.hash 0 7).data ++ cardS2.data ++ (branchHTML c).data,
    (escapeHTML c.message).data ++ cardS5.data ++ (escapeHTML c.author).data ++
      cardS6.data ++ (diffHTML c).data ++ cardS7.data, ?_⟩
  rw [commitCard_data]
  simp [List.append_assoc]

/-- The message slot of the card, with the escaped summary. -/
theorem commitCard_message_slot (n i : Nat) (c : Commit) :
    ((("commit-message\">").data) ++ (escapeHTML c.message).data ++
      (("</p>").data)) <:+: (commitCard n i c).data := by
  have hm := mid_infix cardS4.data (escapeHTML c.message).data cardS5.data
    (("commit-message\">").data) (("</p>").data) (by decide) (by decide)
  apply hm.trans
  refine ⟨cardS0.data ++ (Nat.repr (n - i)).data ++ cardS1.data ++
      (jsSubstring c.hash 0 7).data ++ cardS2.data ++ (branchHTML c).data ++
      cardS3.data ++ (escapeHTML c.date).data,
    (escapeHTML c.author).data ++ cardS6.data ++ (diffHTML c).data ++
      cardS7.data, ?_⟩
  rw [commitCard_data]
  simp [List.append_assoc]

/-- The author slot of the card, with the escaped author. -/
theorem commitCard_author_slot (n i : Nat) (c : Commit) :
    ((("author-name\">").data) ++ (escapeHTML c.author).data ++
      (("</span>").data)) <:+: (commitCard n i c).data := by
  have hm := mid_infix cardS5.data (escapeHTML c.author).data cardS6.data
    (("author-name\">").data) (("</span>").data) (by decide) (by decide)
  apply hm.trans
  refine ⟨cardS0.data ++ (Nat.repr (n - i)).data ++ cardS1.data ++
      (jsSubstring c.hash 0 7).data ++ cardS2.data ++ (branchHTML c).data ++
      cardS3.data ++ (escapeHTML c.date).data ++ cardS4.data ++
      (escapeHTML c.message).data,
    (diffHTML c).data ++ cardS7.data, ?_⟩
  rw [commitCard_data]
  simp [List.append_assoc]

/-- The diff slot of the card, with the escaped diff body, when the diff
is non-empty. -/
theorem commitCard_diff_slot (n i : Nat) (c : Commit) (hd : c.diff ≠ "") :
    ((("<code>").data) ++ (escapeHTML c.diff).data ++
      (("</code></pre>").data)) <:+: (commitCard n i c).data := by
  have hcond : (c.diff != "") = true := by simpa using hd
  have hdh : diffHTML c = diffS0 ++ escapeHTML c.diff ++ diffS1 := by
    rw [diffHTML, if_pos hcond]
  have hm := mid_infix diffS0.data (escapeHTML c.diff).data diffS1.data
    (("<code>").data) (("</code></pre>").data) (by decide) (by decide)
  apply hm.trans
  apply List.IsInfix.trans _ (commitCard_diffHTML_factor n i c)
  rw [hdh, String.data_append, String.data_append]

/-- The escaped title in the head of the populated document. -/
theorem formatCommitsHTML_title_slot (commits : List Commit) (title : String)
    (hne : ¬ commits.length = 0) :
    ((("<title>").data) ++ (escapeHTML title).data ++ (("</title>").data))
      <:+: (formatCommitsHTML commits title).data := by
  have hpre : ("</title>").data <+: popS1.data := by
    have h1 : ("</title>").data <+: popS1c1.data := by decide
    apply h1.trans
    have heq : popS1.data = popS1c1.data ++
        (popS1c2 ++ popS1c3 ++ popS1c4 ++ popS1c5 ++ popS1c6 ++ popS1c7).data := by
      rw [popS1]
      simp [String.data_append, List.append_assoc]
    rw [heq]
    exact List.prefix_append _ _
  have hm := mid_infix popS0.data (escapeHTML title).data popS1.data
    (("<title>").data) (("</title>").data) (by decide) hpre
  apply hm.trans
  rw [formatCommitsHTML_data commits title hne]
  refine ⟨[], (escapeHTML title).data ++ popS2.data ++
      (Nat.repr commits.length).data ++ popS3.data ++
      (pluralS commits.length).data ++ popS4.data ++
      (joinAll (commitCards commits.length 0 commits)).data ++
      popS5.data, ?_⟩
  simp [List.append_assoc]

/-- Concrete record of the C4 counterexample: a hash made of raw `<`
characters, all other fields empty. -/
def cexC4Commit : Commit :=
  { hash := "<<<<<<<", author := "", date := "", message := "",
    branch := "", diff := "" }

/-- The counterexample document contains no ampersand at all, hence no
escaped text produced from the hash. -/
theorem cexC4_doc_no_amp :
    ¬ (("&").data <:+:
        (formatCommitsHTML [cexC4Commit] ("t")).data) := by
  have heq : (formatCommitsHTML [cexC4Commit] ("t")).data =
      popS0.data ++
      [(escapeHTML ("t")).data, popS1c1.data, popS1c2.data, popS1c3.data,
       popS1c4.data, popS1c5.data, popS1c6.data, popS1c7.data,
       (escapeHTML ("t")).data, popS2.data, (Nat.repr 1).data, popS3.data,
       (pluralS 1).data, popS4.data,
       cardS0.data, (Nat.repr 1).data, cardS1.data,
       (jsSubstring cexC4Commit.hash 0 7).data, cardS2.data,
       (branchHTML cexC4Commit).data, cardS3.data,
       (escapeHTML cexC4Commit.date).data, cardS4.data,
       (escapeHTML cexC4Commit.message).data, cardS5.data,
       (escapeHTML cexC4Commit.author).data, cardS6.data,
       (diffHTML cexC4Commit).data, cardS7.data, popS5.data].flatten := by
    rw [formatCommitsHTML_data [cexC4Commit] ("t") (by decide)]
    rw [show ([cexC4Commit] : List Commit).length = 1 from rfl]
    rw [show commitCards 1 0 [cexC4Commit] = [commitCard 1 0 cexC4Commit] from rfl]
    rw [show joinAll [commitCard 1 0 cexC4Commit] =
      commitCard 1 0 cexC4Commit ++ joinAll [] from rfl]
    rw [show joinAll ([] : List String) = "" from rfl]
    rw [String.data_append, commitCard_data]
    rw [popS1]
    simp [String.data_append, List.append_assoc]
  intro hcon
  rw [heq] at hcon
  exact noSub_chunked (("&").data) popS0.data _ (by decide) (by decide) hcon

/-- C4 (counterexample): it is not the case that every interpolated field
— including the shortened revision identifier — is inserted through
`escapeHTML`: for the record whose hash is `<<<<<<<` (other fields and
title benign), the escaped-hash slot asserted by the claim would put an
ampersand into the document, but the rendered document contains no
ampersand at all (the hash is interpolated raw). -/
theorem c4_escape_all_fields_counterexample :
    ¬ (∀ (commits : List Commit) (title : String) (i : Nat)
        (hi : i < commits.length) (c : Commit), commits.get ⟨i, hi⟩ = c →
        (((("class=\"commit-hash\">").data) ++
           (escapeHTML (jsSubstring c.hash 0 7)).data ++
           (("</code>").data)) <:+:
           (formatCommitsHTML commits title).data) ∧
        (((("commit-date\">📅 ").data) ++ (escapeHTML c.date).data ++
           (("</span>").data)) <:+: (formatCommitsHTML commits title).data) ∧
        (((("commit-message\">").data) ++ (escapeHTML c.message).data ++
           (("</p>").data)) <:+: (formatCommitsHTML commits title).data) ∧
        (((("author-name\">").data) ++ (escapeHTML c.author).data ++
           (("</span>").data)) <:+: (formatCommitsHTML commits title).data) ∧
        (c.branch ≠ "" →
          ((("🌿 ").data) ++
            (escapeHTML (jsTrim (List.headD (jsSplit c.branch (",")) ("")))).data ++
            (("</span>").data)) <:+: (formatCommitsHTML commits title).data) ∧
        (c.diff ≠ "" →
          ((("<code>").data) ++ (escapeHTML c.diff).data ++
            (("</code></pre>").data)) <:+:
            (formatCommitsHTML commits title).data) ∧
        (((("<title>").data) ++ (escapeHTML title).data ++
           (("</title>").data)) <:+:
           (formatCommitsHTML commits title).data)) := by
  intro hcl
  have h := (hcl [cexC4Commit] ("t") 0 (by decide) cexC4Commit rfl).1
  have hamp : ("&").data <:+:
      ((("class=\"commit-hash\">").data) ++
        (escapeHTML (jsSubstring cexC4Commit.hash 0 7)).data ++
        (("</code>").data)) := by decide
  exact cexC4_doc_no_amp (hamp.trans h)

/-- C4 (amended): in the populated document every interpolated field
except the shortened revision identifier is passed through the
five-character HTML escaping before insertion — the branch token, date,
summary, author, diff body and title each appear in their slot as
`escapeHTML` output — while the shortened revision identifier (first 7
characters of the hash) is interpolated raw, without escaping. -/
theorem c4_escape_fields_except_hash (commits : List Commit) (title : String)
    (i : Nat) (hi : i < commits.length) (c : Commit)
    (hc : commits.get ⟨i, hi⟩ = c) :
    (((("class=\"commit-hash\">").data) ++ (jsSubstring c.hash 0 7).data ++
       (("</code>").data)) <:+: (formatCommitsHTML commits title).data) ∧
    (((("commit-date\">📅 ").data) ++ (escapeHTML c.date).data ++
       (("</span>").data)) <:+: (formatCommitsHTML commits title).data) ∧
    (((("commit-message\">").data) ++ (escapeHTML c.message).data ++
       (("</p>").data)) <:+: (formatCommitsHTML commits title).data) ∧
    (((("author-name\">").data) ++ (escapeHTML c.author).data ++
       (("</span>").data)) <:+: (formatCommitsHTML commits title).data) ∧
    (c.branch ≠ "" →
      ((("🌿 ").data) ++
        (escapeHTML (jsTrim (List.headD (jsSplit c.branch (",")) ("")))).data ++
        (("</span>").data)) <:+: (formatCommitsHTML commits title).data) ∧
    (c.diff ≠ "" →
      ((("<code>").data) ++ (escapeHTML c.diff).data ++
        (("</code></pre>").data)) <:+:
        (formatCommitsHTML commits title).data) ∧
    (((("<title>").data) ++ (escapeHTML title).data ++
       (("</title>").data)) <:+: (formatCommitsHTML commits title).data) := by
  have hne : ¬ commits.length = 0 := by omega
  have hdoc := commitCard_infix_doc commits title i hi c hc
  refine ⟨(commitCard_hash commits.length i c).trans hdoc,
    (commitCard_date_slot commits.length i c).trans hdoc,
    (commitCard_message_slot commits.length i c).trans hdoc,
    (commitCard_author_slot commits.length i c).trans hdoc,
    fun h => (commitCard_branch_token commits.length i c h).trans hdoc,
    fun h => (commitCard_diff_slot commits.length i c h).trans hdoc,
    formatCommitsHTML_title_slot commits title hne⟩

/-- C4 (witness): the amended escaping properties evaluated on a concrete
single-record document. -/
theorem c4_escape_fields_except_hash_witness :
    (0 < ([c8WitnessCommit] : List Commit).length) ∧
    ((((("class=\"commit-hash\">").data) ++
        (jsSubstring c8WitnessCommit.hash 0 7).data ++ (("</code>").data)) <:+:
        (formatCommitsHTML [c8WitnessCommit] ("t")).data) ∧
    (((("commit-date\">📅 ").data) ++ (escapeHTML c8WitnessCommit.date).data ++
       (("</span>").data)) <:+:
       (formatCommitsHTML [c8WitnessCommit] ("t")).data) ∧
    (((("commit-message\">").data) ++
       (escapeHTML c8WitnessCommit.message).data ++ (("</p>").data)) <:+:
       (formatCommitsHTML [c8WitnessCommit] ("t")).data) ∧
    (((("author-name\">").data) ++ (escapeHTML c8WitnessCommit.author).data ++
       (("</span>").data)) <:+:
       (formatCommitsHTML [c8WitnessCommit] ("t")).data) ∧
    (c8WitnessCommit.branch ≠ "" →
      ((("🌿 ").data) ++
        (escapeHTML (jsTrim (List.headD
          (jsSplit c8WitnessCommit.branch (",")) ("")))).data ++
        (("</span>").data)) <:+:
        (formatCommitsHTML [c8WitnessCommit] ("t")).data) ∧
    (c8WitnessCommit.diff ≠ "" →
      ((("<code>").data) ++ (escapeHTML c8WitnessCommit.diff).data ++
        (("</code></pre>").data)) <:+:
        (formatCommitsHTML [c8WitnessCommit] ("t")).data) ∧
    (((("<title>").data) ++ (escapeHTML ("t")).data ++
       (("</title>").data)) <:+:
       (formatCommitsHTML [c8WitnessCommit] ("t")).data)) :=
  ⟨by decide,
   c4_escape_fields_except_hash [c8WitnessCommit] ("t") 0 (by decide)
     c8WitnessCommit rfl⟩
